import Mathlib

/-!
Verification of the tgrelay webhook bridge: a shallow embedding of the
credential verifier, webhook router, access-control pipeline, RPC
transformer and outbound relay, with theorems checking the documented
behaviour against the embedded code.

JavaScript strings are modelled as Lean `String`; `String(x)` on numbers is
`toString`, and `trim` / `toLowerCase` / `startsWith` / `slice` are
modelled by list-of-character functions that agree with JavaScript on the
ASCII inputs the routing logic compares.
-/

/-- ASCII whitespace test used by the `trim` model. -/
def jsIsSpace (c : Char) : Bool :=
  c = ' ' ∨ c = '\t' ∨ c = '\n' ∨ c = '\r'

/-- Embeds JavaScript `s.trim()`. -/
def jsTrim (s : String) : String :=
  ⟨((s.data.dropWhile jsIsSpace).reverse.dropWhile jsIsSpace).reverse⟩

/-- ASCII lowercasing of one character. -/
def jsLowerChar (c : Char) : Char :=
  if 65 ≤ c.toNat ∧ c.toNat ≤ 90 then Char.ofNat (c.toNat + 32) else c

/-- Embeds JavaScript `s.toLowerCase()` (ASCII range). -/
def jsToLower (s : String) : String :=
  ⟨s.data.map jsLowerChar⟩

/-- Embeds JavaScript `s.startsWith(p)`. -/
def jsStartsWith (s p : String) : Bool :=
  p.data.isPrefixOf s.data

/-- Embeds JavaScript `s.endsWith(p)`. -/
def jsEndsWith (s p : String) : Bool :=
  p.data.reverse.isPrefixOf s.data.reverse

/-- Drops the first `n` characters of a string. -/
def jsDrop (s : String) (n : Nat) : String :=
  ⟨s.data.drop n⟩

/-- Drops the last `n` characters of a string (JavaScript `slice(0, -n)`). -/
def jsDropRight (s : String) (n : Nat) : String :=
  ⟨s.data.take (s.data.length - n)⟩

/-- Embeds JavaScript `text.slice(off, off + len)` (character-based). -/
def jsSlice (s : String) (off len : Nat) : String :=
  ⟨(s.data.drop off).take len⟩

/-- A JavaScript value that is either a number or a string (the
`number | string` unions used for ids and allowlist entries). -/
inductive IdVal where
  | num (n : Int)
  | str (s : String)
deriving Repr, DecidableEq

/-- Embeds `String(x)` on a `number | string` value. -/
def IdVal.toStr : IdVal → String
  | .num n => toString n
  | .str s => s

/-- Embeds `s.replace(/^@/, "")`: strips one leading at-sign. -/
def jsStripAt (s : String) : String :=
  if jsStartsWith s "@" then jsDrop s 1 else s

/-- Embeds `normalizeUserId` from the monitor module:
`String(raw).trim().toLowerCase()`, with null/undefined mapping to `""`. -/
def normalizeUserId (raw : Option IdVal) : String :=
  match raw with
  | none => ""
  | some v => jsToLower (jsTrim v.toStr)

/-- Embeds `normalized.replace(/^(tgrelay|telegram-relay|tg-relay):/i, "")`
as applied to an already lowercased string (the source lowercases first, so
the case-insensitive flag is moot). -/
def stripChannelScheme (s : String) : String :=
  if jsStartsWith s "tgrelay:" then jsDrop s 8
  else if jsStartsWith s "telegram-relay:" then jsDrop s 15
  else if jsStartsWith s "tg-relay:" then jsDrop s 9
  else s

/-- Embeds `isSenderAllowed` from the monitor module. -/
def isSenderAllowed (senderId : IdVal) (senderUsername : Option String)
    (allowFrom : List IdVal) : Bool :=
  if allowFrom.contains (.str "*") then true
  else
    let normalizedSenderId := normalizeUserId (some senderId)
    let normalizedUsername :=
      match senderUsername with
      | some u => jsStripAt (jsToLower (jsTrim u))
      | none => ""
    allowFrom.any fun entry =>
      let normalized := jsStripAt (jsToLower (jsTrim entry.toStr))
      if normalized = "" then false
      else if normalized = normalizedSenderId then true
      else if normalizedUsername ≠ "" ∧ normalized = normalizedUsername then true
      else if stripChannelScheme normalized = normalizedSenderId then true
      else false

/-- Spec-side matching predicate, written from the claim wording: the set
contains the literal wildcard, or some entry after trim/lowercase/at-strip
equals the sender id as a string or the sender username normalized the same
way. (No channel-scheme stripping here; that is what the code adds.) -/
def specSenderMatch (senderId : IdVal) (senderUsername : Option String)
    (allowFrom : List IdVal) : Bool :=
  allowFrom.contains (.str "*") ||
  allowFrom.any fun entry =>
    let normalized := jsStripAt (jsToLower (jsTrim entry.toStr))
    normalized = normalizeUserId (some senderId) ||
    (match senderUsername with
     | some u => normalized = jsStripAt (jsToLower (jsTrim u))
     | none => false)

/-- Headers and query data of an inbound HTTP request that the credential
verifier inspects. -/
structure CredHeaders where
  secretTokenHeader : Option String
  authorizationHeader : Option String
  querySecret : Option String
deriving Repr, DecidableEq

/-- Embeds the JavaScript truthiness test `!expectedSecret` on an optional
string: unset means absent or empty. -/
def isSecretUnset (s : Option String) : Bool :=
  match s with
  | none => true
  | some v => v = ""

/-- Embeds `verifyInboundSecret` from the monitor module. -/
def verifyInboundSecret (req : CredHeaders) (expectedSecret : Option String) : Bool :=
  match expectedSecret with
  | none => true
  | some s =>
    if s = "" then true
    else if req.secretTokenHeader = some s then true
    else if req.querySecret = some s then true
    else if req.authorizationHeader.getD "" = "Bearer " ++ s then true
    else false

example : isSenderAllowed (.num 1) (some "bob") [.str "Bob"] = true := by decide
example : isSenderAllowed (.num 1) (some "bob") [.str "@bob"] = true := by decide
example : isSenderAllowed (.num 123) none [.str "tgrelay:123"] = true := by decide
example : specSenderMatch (.num 123) none [.str "tgrelay:123"] = false := by decide
example : verifyInboundSecret ⟨none, none, none⟩ (some "s") = false := by decide
example : verifyInboundSecret ⟨none, some "Bearer s", none⟩ (some "s") = true := by decide
example : verifyInboundSecret ⟨none, none, some "s"⟩ (some "s") = true := by decide
example : verifyInboundSecret ⟨some "s", none, none⟩ (some "s") = true := by decide
example : verifyInboundSecret ⟨some "x", some "Bearer x", some "x"⟩ (some "s") = false := by decide

/-- A parsed JSON value (the result of `JSON.parse`). -/
inductive Json where
  | null
  | bool (b : Bool)
  | num (n : Int)
  | str (s : String)
  | arr (elems : List Json)
  | obj (fields : List (String × Json))

/-- First-match field lookup on a JSON object. -/
def Json.lookupField (fields : List (String × Json)) (key : String) : Option Json :=
  (fields.find? (fun p => p.1 = key)).map (·.2)

/-- The raw body of an inbound request, classified by what reading and
`JSON.parse` would do with it: total byte length plus parse outcome. -/
inductive InboundBody where
  | valid (byteLen : Nat) (json : Json)
  | invalid (byteLen : Nat) (errMsg : String)
  | empty (byteLen : Nat)
  | streamError (errMsg : String)

/-- Result shape of `readJsonBody`. -/
structure ReadResult where
  ok : Bool
  value : Option Json
  error : Option String

/-- Embeds `readJsonBody` from the monitor module: the byte cap is checked
while streaming (so it fires even for bodies that would not parse), then an
empty/whitespace-only body is rejected, then the parse outcome is returned. -/
def readJsonBody (body : InboundBody) (maxBytes : Nat) : ReadResult :=
  match body with
  | .valid len j =>
    if len > maxBytes then ⟨false, none, some "payload too large"⟩
    else ⟨true, some j, none⟩
  | .invalid len msg =>
    if len > maxBytes then ⟨false, none, some "payload too large"⟩
    else ⟨false, none, some msg⟩
  | .empty len =>
    if len > maxBytes then ⟨false, none, some "payload too large"⟩
    else ⟨false, none, some "empty payload"⟩
  | .streamError msg => ⟨false, none, some msg⟩

/-- Embeds `normalizeWebhookPath` from the monitor module. -/
def normalizeWebhookPath (raw : String) : String :=
  let trimmed := jsTrim raw
  if trimmed = "" then "/"
  else
    let withSlash := if jsStartsWith trimmed "/" then trimmed else "/" ++ trimmed
    if withSlash.data.length > 1 ∧ jsEndsWith withSlash "/" then jsDropRight withSlash 1
    else withSlash

/-- A registered webhook target, reduced to the data the request handler
consults (its inbound credential secret). -/
structure WebhookTargetM where
  inboundSecret : Option String
deriving Repr, DecidableEq

/-- The process-wide path-to-targets registry (`webhookTargets` map). -/
abbrev Registry := List (String × List WebhookTargetM)

/-- Embeds `webhookTargets.get(key)`. -/
def lookupTargets (reg : Registry) (key : String) : Option (List WebhookTargetM) :=
  (reg.find? (fun p => p.1 = key)).map (·.2)

/-- Embeds `webhookTargets.set(key, v)`: replaces an existing binding in
place or appends a new one. -/
def setTargets (reg : Registry) (key : String) (v : List WebhookTargetM) : Registry :=
  if reg.any (fun p => p.1 = key) then
    reg.map (fun p => if p.1 = key then (key, v) else p)
  else reg ++ [(key, v)]

/-- Embeds the registration step of `registerTgrelayWebhookTarget`: the new
target is appended after the targets already registered at the normalized
path. -/
def registerTgrelayWebhookTarget (reg : Registry) (path : String)
    (t : WebhookTargetM) : Registry :=
  let key := normalizeWebhookPath path
  setTargets reg key ((lookupTargets reg key).getD [] ++ [t])

/-- An inbound HTTP request as the webhook handler sees it. -/
structure HttpRequestM where
  method : String
  path : String
  cred : CredHeaders
  body : InboundBody

/-- The response the handler writes: status, optional Allow header,
optional Content-Type header, body text. -/
structure HttpResponseM where
  status : Nat
  allowHeader : Option String
  contentType : Option String
  body : String
deriving Repr, DecidableEq

/-- Handler outcome: either the request is declared unhandled (no response
written), or a response is written, together with the index of the target
whose asynchronous processing was spawned (if any). The response is written
without waiting on that processing. -/
inductive HandleOutcome where
  | unhandled
  | handled (resp : HttpResponseM) (spawned : Option Nat)
deriving Repr, DecidableEq

/-- Index of the first target whose credential check passes (the selection
loop in `handleTgrelayWebhookRequest`). -/
def firstVerifiedIndex (cred : CredHeaders) : List WebhookTargetM → Option Nat
  | [] => none
  | t :: rest =>
    if verifyInboundSecret cred t.inboundSecret then some 0
    else (firstVerifiedIndex cred rest).map (· + 1)

/-- Embeds `handleTgrelayWebhookRequest` from the monitor module. -/
def handleTgrelayWebhookRequest (reg : Registry) (req : HttpRequestM) : HandleOutcome :=
  let path := normalizeWebhookPath req.path
  match lookupTargets reg path with
  | none => .unhandled
  | some targets =>
    if targets.isEmpty then .unhandled
    else if req.method ≠ "POST" then
      .handled ⟨405, some "POST", none, "Method Not Allowed"⟩ none
    else
      let body := readJsonBody req.body (1024 * 1024)
      if body.ok = false then
        .handled ⟨if body.error = some "payload too large" then 413 else 400,
                  none, none, body.error.getD "invalid payload"⟩ none
      else
        match body.value with
        | some (Json.obj fields) =>
          match Json.lookupField fields "update_id" with
          | some (Json.num _) =>
            (match firstVerifiedIndex req.cred targets with
             | none => .handled ⟨401, none, none, "unauthorized"⟩ none
             | some i => .handled ⟨200, none, some "application/json", "\x7b\x7d"⟩ (some i))
          | _ => .handled ⟨400, none, none, "invalid payload: missing update_id"⟩ none
        | _ => .handled ⟨400, none, none, "invalid payload"⟩ none

example : normalizeWebhookPath "tgrelay" = "/tgrelay" := by decide
example : normalizeWebhookPath "/tgrelay/" = "/tgrelay" := by decide
example : normalizeWebhookPath "" = "/" := by decide
example :
    handleTgrelayWebhookRequest [("/tgrelay", [⟨some "s"⟩])]
      ⟨"GET", "/tgrelay", ⟨none, none, none⟩, .empty 0⟩ =
    .handled ⟨405, some "POST", none, "Method Not Allowed"⟩ none := by decide
example :
    handleTgrelayWebhookRequest [("/tgrelay", [⟨some "s"⟩])]
      ⟨"POST", "/tgrelay", ⟨some "s", none, none⟩,
        .valid 20 (.obj [("update_id", .num 5)])⟩ =
    .handled ⟨200, none, some "application/json", "\x7b\x7d"⟩ (some 0) := by decide
example :
    handleTgrelayWebhookRequest [("/tgrelay", [⟨some "s"⟩])]
      ⟨"POST", "/other", ⟨none, none, none⟩, .empty 0⟩ = .unhandled := by decide

/-- Telegram chat type. -/
inductive ChatType where
  | private_
  | group
  | supergroup
  | channel
deriving Repr, DecidableEq

/-- A message sender (`message.from`). -/
structure TgUser where
  id : Int
  username : Option String
  first_name : Option String
  last_name : Option String
  is_bot : Bool
deriving Repr, DecidableEq

/-- A chat (`message.chat`). -/
structure TgChat where
  id : Int
  type : ChatType
  title : Option String
deriving Repr, DecidableEq

/-- A message entity; `userUsername` is `entity.user?.username`. -/
structure MentionEntity where
  type : String
  offset : Nat
  length : Nat
  userUsername : Option String
deriving Repr, DecidableEq

/-- The fields of an inbound message that the processing pipeline reads.
Media attachments are modelled by presence flags (`photoCount` is
`message.photo?.length`). -/
structure TgrelayMessageM where
  message_id : Int
  chat : Option TgChat
  from_ : Option TgUser
  text : Option String
  caption : Option String
  entities : Option (List MentionEntity)
  caption_entities : Option (List MentionEntity)
  photoCount : Option Nat
  document : Bool
  audio : Bool
  video : Bool
  voice : Bool
  sticker : Bool
  message_thread_id : Option Int
deriving Repr, DecidableEq

/-- Per-group override entry (`TgrelayAccountConfig.groups` values). -/
structure GroupEntryCfg where
  enabled : Option Bool
  allow : Option Bool
  requireMention : Option Bool
  users : Option (List IdVal)
  systemPrompt : Option String
deriving Repr, DecidableEq

/-- DM section of the account configuration. -/
structure DmConfig where
  policy : Option String
  allowFrom : Option (List IdVal)
deriving Repr, DecidableEq

/-- The account configuration fields the pipeline reads. `groups` is the
configured group map, as an insertion-ordered association list. -/
structure TgrelayAccountConfigM where
  dm : Option DmConfig
  groupPolicy : Option String
  groups : Option (List (String × GroupEntryCfg))
  groupAllowFrom : Option (List IdVal)
  requireMention : Option Bool
  botUsername : Option String
deriving Repr, DecidableEq

/-- Process configuration values consulted by the pipeline:
`config.channels?.defaults?.groupPolicy` and
`config.commands?.useAccessGroups !== false`. -/
structure PipelineCfg where
  defaultGroupPolicy : Option String
  useAccessGroups : Bool
deriving Repr, DecidableEq

/-- Result of `resolveGroupConfig`. -/
structure ResolvedGroupConfig where
  entry : Option GroupEntryCfg
  allowlistConfigured : Bool
  fallback : Option GroupEntryCfg
deriving Repr, DecidableEq

/-- First-match lookup in the configured group map (`entries[key]`). -/
def lookupGroupEntry (entries : List (String × GroupEntryCfg)) (key : String) :
    Option GroupEntryCfg :=
  (entries.find? (fun p => p.1 = key)).map (·.2)

/-- Embeds `resolveGroupConfig` from the monitor module. -/
def resolveGroupConfig (groupId : IdVal) (groupName : Option String)
    (groups : Option (List (String × GroupEntryCfg))) : ResolvedGroupConfig :=
  let entries := groups.getD []
  if entries.length = 0 then ⟨none, false, none⟩
  else
    let normalizedName := groupName.map (fun s => jsToLower (jsTrim s))
    let candidates :=
      [groupId.toStr, groupName.getD "", normalizedName.getD ""].filter (fun s => s ≠ "")
    let entry0 := (candidates.filterMap (lookupGroupEntry entries)).head?
    let entry :=
      match entry0, normalizedName with
      | none, some n => if n ≠ "" then lookupGroupEntry entries n else none
      | e, _ => e
    let fallback := lookupGroupEntry entries "*"
    ⟨entry <|> fallback, true, fallback⟩

/-- Result of `extractMentionInfo`. -/
structure MentionInfo where
  hasAnyMention : Bool
  wasMentioned : Bool
deriving Repr, DecidableEq

/-- Embeds `extractMentionInfo` from the monitor module. -/
def extractMentionInfo (msg : TgrelayMessageM) (botUsername : Option String) :
    MentionInfo :=
  let entities := (msg.entities <|> msg.caption_entities).getD []
  let text := (msg.text <|> msg.caption).getD ""
  let mentionEntities :=
    entities.filter (fun e => e.type = "mention" ∨ e.type = "text_mention")
  let hasAnyMention := !mentionEntities.isEmpty
  let bu := botUsername.getD ""
  if bu = "" then ⟨hasAnyMention, false⟩
  else
    let normalizedBot := jsStripAt (jsToLower (jsTrim bu))
    let wasMentioned := mentionEntities.any fun e =>
      if e.type = "text_mention" ∧ e.userUsername.getD "" ≠ "" then
        jsToLower (e.userUsername.getD "") = normalizedBot
      else if e.type = "mention" then
        jsStripAt (jsToLower (jsSlice text e.offset e.length)) = normalizedBot
      else false
    ⟨hasAnyMention, wasMentioned⟩

/-- Argument record of the external `resolveMentionGatingWithBypass`
collaborator. -/
structure MentionGateArgs where
  isGroup : Bool
  requireMention : Bool
  canDetectMention : Bool
  wasMentioned : Bool
  implicitMention : Bool
  hasAnyMention : Bool
  allowTextCommands : Bool
  hasControlCommand : Bool
  commandAuthorized : Bool
deriving Repr, DecidableEq

/-- Result record of the external mention-gating collaborator. -/
structure MentionGateResult where
  shouldSkip : Bool
  effectiveWasMentioned : Bool
deriving Repr, DecidableEq

/-- External collaborators of the pipeline (command helpers, pairing store,
mention gating), modelled as explicit inputs: the pipeline only branches on
their results. -/
structure CoreOracles where
  shouldComputeCommandAuthorized : Bool
  storeAllowFrom : List IdVal
  resolveCommandAuthorized : Bool → Bool → Bool → Bool
  shouldHandleTextCommands : Bool
  hasControlCommand : Bool
  mentionGate : MentionGateArgs → MentionGateResult
  isControlCommandMessage : Bool
  pairingCreated : Bool

/-- Decision taken by `processMessageWithPipeline` for one message. Each
early `return` in the source maps to one constructor; `dispatched` means
the message was handed to the agent-routing collaborator. In
`pairingRequest`, `created` is the store's create-or-fetch flag and
`replyAttempted` records whether a pairing-code reply send was started
(the source only sends when `created` is true). -/
inductive PipelineOutcome where
  | skippedNoChat
  | skippedBotSender
  | skippedEmptyBody
  | dropGroupPolicyDisabled
  | dropGroupNoAllowlist
  | dropGroupNotAllowlisted
  | dropGroupChatDisabled
  | dropGroupSenderNotAllowed
  | dropMentionRequired
  | dropDmDisabled
  | pairingRequest (senderId : String) (created : Bool) (replyAttempted : Bool)
  | blockedDmSender
  | dropControlCommand
  | dispatched (effectiveWasMentioned : Option Bool) (commandAuthorized : Option Bool)
deriving Repr, DecidableEq

/-- Embeds the access-control decision logic of `processMessageWithPipeline`
from the monitor module (the part up to and including the decision whether
the message reaches the agent-routing collaborator). -/
def processMessageWithPipeline (msg : TgrelayMessageM)
    (account : TgrelayAccountConfigM) (cfg : PipelineCfg) (o : CoreOracles) :
    PipelineOutcome :=
  match msg.chat with
  | none => .skippedNoChat
  | some chat =>
    let chatId := chat.id
    let chatType := chat.type
    let isGroup := chatType = .group ∨ chatType = .supergroup ∨ chatType = .channel
    let sender := msg.from_
    let senderId : Int := (sender.map (·.id)).getD 0
    let senderUsername := sender.bind (·.username)
    let allowBots := account.dm.bind (·.policy) = some "open"
    if ¬allowBots ∧ (sender.map (·.is_bot)).getD false then .skippedBotSender
    else
      let messageText := jsTrim ((msg.text <|> msg.caption).getD "")
      let hasMedia := (msg.photoCount.getD 0 > 0) ∨ msg.document ∨ msg.audio ∨
        msg.video ∨ msg.voice ∨ msg.sticker
      let rawBody := if messageText ≠ "" then messageText
        else if hasMedia then "<media:attachment>" else ""
      if rawBody = "" then .skippedEmptyBody
      else
        let groupPolicy := (account.groupPolicy <|> cfg.defaultGroupPolicy).getD "allowlist"
        let gcr := resolveGroupConfig (.num chatId) chat.title account.groups
        let groupEntry := gcr.entry
        let groupUsers := ((groupEntry.bind (·.users)) <|> account.groupAllowFrom).getD []
        let groupCheck : Option PipelineOutcome :=
          if isGroup then
            if groupPolicy = "disabled" then some .dropGroupPolicyDisabled
            else
              let groupAllowed := groupEntry.isSome ∨
                (lookupGroupEntry (account.groups.getD []) "*").isSome
              if groupPolicy = "allowlist" ∧ ¬gcr.allowlistConfigured then
                some .dropGroupNoAllowlist
              else if groupPolicy = "allowlist" ∧ ¬groupAllowed then
                some .dropGroupNotAllowlisted
              else if groupEntry.bind (·.enabled) = some false ∨
                  groupEntry.bind (·.allow) = some false then
                some .dropGroupChatDisabled
              else if groupUsers ≠ [] ∧
                  ¬isSenderAllowed (.num senderId) senderUsername groupUsers then
                some .dropGroupSenderNotAllowed
              else none
          else none
        match groupCheck with
        | some out => out
        | none =>
          let dmPolicy := (account.dm.bind (·.policy)).getD "pairing"
          let configAllowFrom := (account.dm.bind (·.allowFrom)).getD []
          let shouldComputeAuth := o.shouldComputeCommandAuthorized
          let storeAllowFrom :=
            if ¬isGroup ∧ (dmPolicy ≠ "open" ∨ shouldComputeAuth) then o.storeAllowFrom
            else []
          let effectiveAllowFrom := configAllowFrom ++ storeAllowFrom
          let commandAllowFrom := if isGroup then groupUsers else effectiveAllowFrom
          let senderAllowedForCommands :=
            isSenderAllowed (.num senderId) senderUsername commandAllowFrom
          let commandAuthorized : Option Bool :=
            if shouldComputeAuth then
              some (o.resolveCommandAuthorized cfg.useAccessGroups
                (commandAllowFrom ≠ []) senderAllowedForCommands)
            else none
          let gateStep : Option Bool × Bool :=
            if isGroup then
              let requireMention :=
                ((groupEntry.bind (·.requireMention)) <|> account.requireMention).getD true
              let mentionInfo := extractMentionInfo msg account.botUsername
              let gate := o.mentionGate
                { isGroup := true, requireMention := requireMention,
                  canDetectMention := true, wasMentioned := mentionInfo.wasMentioned,
                  implicitMention := false, hasAnyMention := mentionInfo.hasAnyMention,
                  allowTextCommands := o.shouldHandleTextCommands,
                  hasControlCommand := o.hasControlCommand,
                  commandAuthorized := commandAuthorized = some true }
              (some gate.effectiveWasMentioned, gate.shouldSkip)
            else (none, false)
          if gateStep.2 then .dropMentionRequired
          else if ¬isGroup ∧ dmPolicy = "disabled" then .dropDmDisabled
          else if ¬isGroup ∧ dmPolicy ≠ "open" ∧ ¬senderAllowedForCommands then
            if dmPolicy = "pairing" then
              .pairingRequest (toString senderId) o.pairingCreated o.pairingCreated
            else .blockedDmSender
          else if isGroup ∧ o.isControlCommandMessage ∧ commandAuthorized ≠ some true then
            .dropControlCommand
          else .dispatched gateStep.1 commandAuthorized

/-- A JavaScript primitive inside an outbound RPC payload. -/
inductive JPrim where
  | str (s : String)
  | num (n : Int)
  | bool (b : Bool)
  | null
deriving Repr, DecidableEq

/-- A value inside an outbound RPC payload: a primitive, an attachment
(`InputFile`, with its byte content carried as the base64 string the
encoder would produce and its optional filename), an array, or an object. -/
inductive RpcValue where
  | prim (p : JPrim)
  | file (base64 : String) (filename : Option String)
  | arr (items : List RpcValue)
  | obj (fields : List (String × RpcValue))

mutual
/-- Structural size of an `RpcValue`, used as termination measure. -/
def RpcValue.sz : RpcValue → Nat
  | .prim _ => 1
  | .file _ _ => 1
  | .arr items => 1 + szList items
  | .obj fields => 1 + szFields fields
/-- Size of a list of values. -/
def szList : List RpcValue → Nat
  | [] => 0
  | v :: rest => 1 + v.sz + szList rest
/-- Size of an object field list. -/
def szFields : List (String × RpcValue) → Nat
  | [] => 0
  | p :: rest => 1 + p.2.sz + szFields rest
end

/-- Embeds `inputFileToFileData`: the `base64`/`filename` record an
attachment is converted to (the byte reading and base64 encoding itself is
I/O; its result is the carried string). -/
def encodeFileData (base64 : String) (filename : Option String) : RpcValue :=
  .obj (("base64", .prim (.str base64)) ::
    (match filename with
     | some f => [("filename", .prim (.str f))]
     | none => []))

/-- JavaScript object assignment `result[k] = v`: replaces an existing key
in place, otherwise appends. -/
def setKey (fields : List (String × RpcValue)) (k : String) (v : RpcValue) :
    List (String × RpcValue) :=
  if fields.any (fun p => p.1 = k) then
    fields.map (fun p => if p.1 = k then (k, v) else p)
  else fields ++ [(k, v)]

/-- Embeds `Object.entries` applied to an array: index-keyed entries. -/
def indexEntriesFrom : Nat → List RpcValue → List (String × RpcValue)
  | _, [] => []
  | i, v :: rest => (toString i, v) :: indexEntriesFrom (i + 1) rest

theorem szFields_indexEntriesFrom (i : Nat) (ys : List RpcValue) :
    szFields (indexEntriesFrom i ys) = szList ys := by
  induction ys generalizing i with
  | nil => rfl
  | cons y rest ih => simp [indexEntriesFrom, szFields, szList, ih]

mutual
/-- Handling of one array item inside `processPayloadForRpc`: an
`InputFile` becomes a `file_data` object; any other object (including a
nested array, whose `typeof` is object) is processed recursively via its
entries; primitives pass through. -/
def procItem : RpcValue → RpcValue
  | .file b fn => .obj [("file_data", encodeFileData b fn)]
  | .obj fields => .obj (processPayloadForRpc fields)
  | .arr ys => .obj (processPayloadForRpc (indexEntriesFrom 0 ys))
  | .prim p => .prim p
  termination_by v => (v.sz, 2)
  decreasing_by
    all_goals
      simp [RpcValue.sz, szList, szFields, szFields_indexEntriesFrom, Prod.lex_iff]
    all_goals omega

/-- The `Promise.all(value.map(...))` over an array of items. -/
def procItems : List RpcValue → List RpcValue
  | [] => []
  | v :: rest => procItem v :: procItems rest
  termination_by l => (szList l, 0)
  decreasing_by
    all_goals
      simp [RpcValue.sz, szList, szFields, szFields_indexEntriesFrom, Prod.lex_iff]
    all_goals omega

/-- Embeds `processPayloadForRpc` from the telegram webhook module. -/
def processPayloadForRpc (payload : List (String × RpcValue)) :
    List (String × RpcValue) :=
  procEntries payload []
  termination_by (szFields payload + 1, 1)
  decreasing_by
    all_goals
      simp [RpcValue.sz, szList, szFields, szFields_indexEntriesFrom, Prod.lex_iff]

/-- The entry loop of `processPayloadForRpc`: builds `result` by assigning
each processed entry in order (an `InputFile` value assigns both the
`file_data` field and a `"file_data"` placeholder string under the original
key). -/
def procEntries : List (String × RpcValue) → List (String × RpcValue) →
    List (String × RpcValue)
  | [], result => result
  | (k, v) :: rest, result =>
    match v with
    | .file b fn =>
      procEntries rest
        (setKey (setKey result "file_data" (encodeFileData b fn)) k (.prim (.str "file_data")))
    | .arr items => procEntries rest (setKey result k (.arr (procItems items)))
    | .obj fields => procEntries rest (setKey result k (.obj (processPayloadForRpc fields)))
    | .prim p => procEntries rest (setKey result k (.prim p))
  termination_by l _ => (szFields l, 0)
  decreasing_by
    all_goals
      simp [RpcValue.sz, szList, szFields, szFields_indexEntriesFrom, Prod.lex_iff]
    all_goals omega
end

mutual
/-- True when a value contains no raw attachment (`file`) anywhere. -/
def RpcValue.noFile : RpcValue → Bool
  | .prim _ => true
  | .file _ _ => false
  | .arr items => noFileList items
  | .obj fields => noFileFields fields
/-- No raw attachment anywhere in a list of values. -/
def noFileList : List RpcValue → Bool
  | [] => true
  | v :: rest => v.noFile && noFileList rest
/-- No raw attachment anywhere in an object field list. -/
def noFileFields : List (String × RpcValue) → Bool
  | [] => true
  | p :: rest => p.2.noFile && noFileFields rest
end

theorem noFile_obj (fs : List (String × RpcValue)) :
    (RpcValue.obj fs).noFile = noFileFields fs := by
  simp [RpcValue.noFile]

theorem noFile_arr (l : List RpcValue) :
    (RpcValue.arr l).noFile = noFileList l := by
  simp [RpcValue.noFile]

theorem noFileFields_cons (p : String × RpcValue) (rest : List (String × RpcValue)) :
    noFileFields (p :: rest) = (p.2.noFile && noFileFields rest) := by
  simp [noFileFields]

theorem noFileList_cons (v : RpcValue) (rest : List RpcValue) :
    noFileList (v :: rest) = (v.noFile && noFileList rest) := by
  simp [noFileList]

theorem encodeFileData_noFile (b : String) (fn : Option String) :
    (encodeFileData b fn).noFile = true := by
  cases fn <;> simp [encodeFileData, noFile_obj, noFileFields, RpcValue.noFile]

theorem noFileFields_map_set {fields : List (String × RpcValue)} {k : String}
    {v : RpcValue} (hf : noFileFields fields = true) (hv : v.noFile = true) :
    noFileFields (fields.map (fun p => if p.1 = k then (k, v) else p)) = true := by
  induction fields with
  | nil => simpa using hf
  | cons p rest ih =>
    rw [noFileFields_cons, Bool.and_eq_true] at hf
    rw [List.map_cons, noFileFields_cons, Bool.and_eq_true]
    refine ⟨?_, ih hf.2⟩
    split <;> simp_all

theorem noFileFields_append_single {fields : List (String × RpcValue)} {k : String}
    {v : RpcValue} (hf : noFileFields fields = true) (hv : v.noFile = true) :
    noFileFields (fields ++ [(k, v)]) = true := by
  induction fields with
  | nil => simpa [noFileFields_cons, noFileFields] using hv
  | cons p rest ih =>
    rw [noFileFields_cons, Bool.and_eq_true] at hf
    rw [List.cons_append, noFileFields_cons, Bool.and_eq_true]
    exact ⟨hf.1, ih hf.2⟩

theorem noFileFields_setKey {fields : List (String × RpcValue)} {k : String}
    {v : RpcValue} (hf : noFileFields fields = true) (hv : v.noFile = true) :
    noFileFields (setKey fields k v) = true := by
  unfold setKey
  split
  · exact noFileFields_map_set hf hv
  · exact noFileFields_append_single hf hv

theorem RpcValue.sz_pos (v : RpcValue) : 1 ≤ v.sz := by
  cases v <;> simp [RpcValue.sz]

theorem noFile_main (n : Nat) :
    (∀ v : RpcValue, v.sz ≤ n → (procItem v).noFile = true) ∧
    (∀ p acc, szFields p ≤ n → noFileFields acc = true →
      noFileFields (procEntries p acc) = true) ∧
    (∀ l, szList l ≤ n → noFileList (procItems l) = true) := by
  induction n using Nat.strong_induction_on with
  | _ n IH =>
    have hproc : ∀ m, m < n → ∀ (fields : List (String × RpcValue)),
        szFields fields ≤ m → noFileFields (processPayloadForRpc fields) = true := by
      intro m hm fields hsz
      have := (IH m hm).2.1 fields [] hsz (by simp [noFileFields])
      simpa [processPayloadForRpc] using this
    refine ⟨?_, ?_, ?_⟩
    · intro v hv
      match v with
      | .prim p => simp [procItem, RpcValue.noFile]
      | .file b fn =>
        rw [show procItem (.file b fn) = .obj [("file_data", encodeFileData b fn)]
          from by simp [procItem]]
        rw [noFile_obj, noFileFields_cons, encodeFileData_noFile]
        simp [noFileFields]
      | .obj fields =>
        have hsz : szFields fields ≤ n - 1 := by
          simp [RpcValue.sz] at hv; omega
        have hn : (1 : Nat) ≤ n := le_trans (RpcValue.sz_pos _) hv
        rw [show procItem (.obj fields) = .obj (processPayloadForRpc fields)
          from by simp [procItem]]
        rw [noFile_obj]
        exact hproc (n - 1) (by omega) fields hsz
      | .arr ys =>
        have hn : (1 : Nat) ≤ n := le_trans (RpcValue.sz_pos _) hv
        have hsz : szFields (indexEntriesFrom 0 ys) ≤ n - 1 := by
          rw [szFields_indexEntriesFrom]
          simp [RpcValue.sz] at hv; omega
        rw [show procItem (.arr ys) = .obj (processPayloadForRpc (indexEntriesFrom 0 ys))
          from by simp [procItem]]
        rw [noFile_obj]
        exact hproc (n - 1) (by omega) _ hsz
    · intro p acc hsz hacc
      match p with
      | [] => simpa [procEntries] using hacc
      | (k, v) :: rest =>
        have hvs := RpcValue.sz_pos v
        have hszc : 1 + v.sz + szFields rest ≤ n := by simpa [szFields] using hsz
        have hrest : szFields rest ≤ n - 1 := by omega
        have hn : (1 : Nat) ≤ n := by omega
        have hrec := (IH (n - 1) (by omega)).2.1
        match v with
        | .prim q =>
          rw [show procEntries ((k, .prim q) :: rest) acc =
              procEntries rest (setKey acc k (.prim q)) from by simp [procEntries]]
          exact hrec rest _ hrest (noFileFields_setKey hacc (by simp [RpcValue.noFile]))
        | .file b fn =>
          rw [show procEntries ((k, .file b fn) :: rest) acc =
              procEntries rest
                (setKey (setKey acc "file_data" (encodeFileData b fn)) k
                  (.prim (.str "file_data"))) from by simp [procEntries]]
          exact hrec rest _ hrest
            (noFileFields_setKey
              (noFileFields_setKey hacc (encodeFileData_noFile b fn))
              (by simp [RpcValue.noFile]))
        | .obj fields =>
          have hsz2 : szFields fields ≤ n - 1 := by
            simp [szFields, RpcValue.sz] at hsz; omega
          rw [show procEntries ((k, .obj fields) :: rest) acc =
              procEntries rest (setKey acc k (.obj (processPayloadForRpc fields)))
              from by simp [procEntries]]
          exact hrec rest _ hrest
            (noFileFields_setKey hacc
              (by rw [noFile_obj]; exact hproc (n - 1) (by omega) fields hsz2))
        | .arr items =>
          have hsz2 : szList items ≤ n - 1 := by
            simp [szFields, RpcValue.sz] at hsz; omega
          rw [show procEntries ((k, .arr items) :: rest) acc =
              procEntries rest (setKey acc k (.arr (procItems items)))
              from by simp [procEntries]]
          exact hrec rest _ hrest
            (noFileFields_setKey hacc
              (by rw [noFile_arr]; exact (IH (n - 1) (by omega)).2.2 items hsz2))
    · intro l hl
      match l with
      | [] => simp [procItems, noFileList]
      | v :: rest =>
        have hvs := RpcValue.sz_pos v
        have hlc : 1 + v.sz + szList rest ≤ n := by simpa [szList] using hl
        have hv : v.sz ≤ n - 1 := by omega
        have hrest : szList rest ≤ n - 1 := by omega
        rw [show procItems (v :: rest) = procItem v :: procItems rest
          from by simp [procItems]]
        rw [noFileList_cons, Bool.and_eq_true]
        exact ⟨(IH (n - 1) (by omega)).1 v hv, (IH (n - 1) (by omega)).2.2 rest hrest⟩

theorem processPayloadForRpc_noFile (payload : List (String × RpcValue)) :
    noFileFields (processPayloadForRpc payload) = true := by
  have := (noFile_main (szFields payload)).2.1 payload [] le_rfl (by simp [noFileFields])
  simpa [processPayloadForRpc] using this

/-- Embeds JavaScript `s.includes(sub)`. -/
def jsIncludes (s sub : String) : Bool :=
  (List.range (s.data.length + 1)).any (fun i => sub.data.isPrefixOf (s.data.drop i))

/-- Options of the RPC transformer that influence control flow. -/
structure RpcTransformerOpts where
  rpcUrl : String
  excludeMethods : List String
  rpcTimeout : Option Nat
deriving Repr, DecidableEq

/-- Failures the transformer can raise: the typed non-2xx failure carrying
the HTTP status (`RPC HTTP <status>` in the source) or a transport error
from the fetch itself. -/
inductive RpcFailure where
  | httpError (status : Nat)
  | transport (msg : String)
deriving Repr, DecidableEq

/-- Outcome of the single fetch to the RPC URL. -/
inductive RpcFetchOutcome where
  | resp (status : Nat) (body : Json)
  | netError (msg : String)

/-- Observable effects of one transformer invocation, in order: the fetch
to the RPC URL, a fall-through call to `prev`, the `onError` hook. -/
inductive RpcEvent where
  | rpcSend
  | prevCall (method : String)
  | onError (method : String)
deriving Repr, DecidableEq

/-- Result of one transformer invocation: ordered effect trace, the JSON
body posted to the RPC URL (when a request was made at all), and the value
returned or failure raised. -/
structure RpcCallOutcome where
  events : List RpcEvent
  sentBody : Option (List (String × RpcValue))
  result : Except RpcFailure Json

/-- The JSON body `{ method, ...processedPayload }`: the method field first,
then the processed entries spread over it in order. -/
def spreadWithMethod (method : String) (processed : List (String × RpcValue)) :
    List (String × RpcValue) :=
  processed.foldl (fun acc p => setKey acc p.1 p.2) [("method", .prim (.str method))]

/-- Embeds one invocation of the transformer returned by
`createRpcTransformer` (telegram webhook module variant, which runs the
`processPayloadForRpc` pre-pass): an excluded method falls through to
`prev` without any RPC request; otherwise the processed payload is posted
once, a 2xx response is returned, and any failure fires `onError` once and
is then re-raised. -/
def rpcTransformerCall (opts : RpcTransformerOpts) (method : String)
    (payload : Option (List (String × RpcValue))) (fetch : RpcFetchOutcome)
    (prevResult : Json) : RpcCallOutcome :=
  if opts.excludeMethods.contains method then
    ⟨[.prevCall method], none, .ok prevResult⟩
  else
    let processed :=
      match payload with
      | some p => processPayloadForRpc p
      | none => []
    let body := spreadWithMethod method processed
    match fetch with
    | .resp status rbody =>
      if 200 ≤ status ∧ status ≤ 299 then ⟨[.rpcSend], some body, .ok rbody⟩
      else ⟨[.rpcSend, .onError method], some body, .error (.httpError status)⟩
    | .netError msg => ⟨[.rpcSend, .onError method], some body, .error (.transport msg)⟩

/-- Outcome of one `sleepWithAbort` backoff sleep. Modelled from the spec:
the source of `sleepWithAbort` (infra/backoff) is not in the repository
snapshot; per the spec the sleep either completes, or rejects — with the
external abort signal set when the abort caused it. -/
inductive SleepOutcome where
  | completed
  | abortedSignal
  | failedOther (msg : String)
deriving Repr, DecidableEq

/-- One failed `bot.init()` attempt: the formatted error message, the
`isRecoverableTelegramNetworkError` classification (external module,
carried as a datum), and what the subsequent backoff sleep did. -/
structure InitFailure where
  errMsg : String
  recoverable : Bool
  sleep : SleepOutcome
deriving Repr, DecidableEq

/-- Outcome of one `bot.init()` attempt. -/
inductive InitAttempt where
  | ok
  | fail (f : InitFailure)
deriving Repr, DecidableEq

/-- Result of the startup init retry loop: success after some number of
calls, the original error re-raised, the distinct abort failure, or a
non-abort sleep error re-raised. -/
inductive InitResult where
  | success (callsMade : Nat)
  | fatal (errMsg : String)
  | abortedDuringInitRetry
  | sleepError (msg : String)
deriving Repr, DecidableEq

/-- Maximum number of retry attempts for `bot.init()` before giving up. -/
def WEBHOOK_INIT_MAX_RETRIES : Nat := 10

/-- Embeds the `while (true)` init retry loop of `startTelegramWebhook`,
parameterized by the outcome of each attempt. `initAttempts` is the number
of failures so far (0 at startup). A failure that is neither recoverable
nor carries the `RPC HTTP` marker, or the ceiling being reached, re-raises
the attempt's error; otherwise the loop sleeps and retries, and an abort
during the sleep raises the distinct aborted-during-init-retry failure. -/
def initRetryLoop (attempts : Nat → InitAttempt) (initAttempts : Nat) : InitResult :=
  match attempts initAttempts with
  | .ok => .success (initAttempts + 1)
  | .fail f =>
    let n := initAttempts + 1
    let isRpcError := jsIncludes f.errMsg "RPC HTTP"
    if (¬f.recoverable ∧ ¬isRpcError) ∨ n ≥ WEBHOOK_INIT_MAX_RETRIES then .fatal f.errMsg
    else
      match f.sleep with
      | .completed => initRetryLoop attempts n
      | .abortedSignal => .abortedDuringInitRetry
      | .failedOther m => .sleepError m
  termination_by WEBHOOK_INIT_MAX_RETRIES - initAttempts
  decreasing_by
    simp [WEBHOOK_INIT_MAX_RETRIES] at *
    omega

/-- The `result.chat` sub-object of a relay response. -/
structure RelayChat where
  id : Option Int
deriving Repr, DecidableEq

/-- The `result` sub-object of a relay response. -/
structure RelayResultField where
  message_id : Option Int
  chat : Option RelayChat
deriving Repr, DecidableEq

/-- A parsed relay response body: both the nested Telegram shape and the
flattened shape are optional field groups. -/
structure RelayResponseBody where
  ok : Option Bool
  result : Option RelayResultField
  message_id : Option Int
  chat_id : Option IdVal
deriving Repr, DecidableEq

/-- Outcome of the outbound fetch: a response with status, text body and
JSON parse result (`none` when `response.json()` rejects, which the source
maps to an empty object), or a transport error. -/
inductive OutboundFetch where
  | resp (status : Nat) (bodyText : String) (json : Option RelayResponseBody)
  | transportError (msg : String)
deriving Repr, DecidableEq

/-- The structured result of the direct-relay send. -/
structure TgrelaySendResult where
  ok : Bool
  messageId : Option String
  chatId : Option String
  error : Option String
deriving Repr, DecidableEq

/-- The outbound payload fields used by the send path. -/
structure TgrelayOutboundMessage where
  method : String
  chat_id : IdVal
  text : Option String
  caption : Option String
  parse_mode : Option String
  reply_to_message_id : Option Int
  message_thread_id : Option Int
  disable_notification : Option Bool
deriving Repr, DecidableEq

/-- Embeds `sendToOutbound` from the api module: a missing (or empty, by
JavaScript falsiness) outbound URL, a non-2xx status, or a transport error
each yield an `ok: false` result; a 2xx response is parsed permissively,
accepting both the nested and the flattened id shapes, with the payload's
`chat_id` as the final fallback. -/
def sendToOutbound (outboundUrl : Option String) (payload : TgrelayOutboundMessage)
    (fetch : OutboundFetch) : TgrelaySendResult :=
  if outboundUrl.getD "" = "" then
    ⟨false, none, none, some "outboundUrl not configured for tgrelay account"⟩
  else
    match fetch with
    | .transportError msg => ⟨false, none, none, some msg⟩
    | .resp status text json =>
      if ¬(200 ≤ status ∧ status ≤ 299) then
        ⟨false, none, none, some ("HTTP " ++ toString status ++ ": " ++ text)⟩
      else
        let result := json.getD ⟨none, none, none, none⟩
        let messageId :=
          ((result.result.bind (·.message_id)).map toString) <|>
            (result.message_id.map toString)
        let chatId :=
          (((result.result.bind (·.chat)).bind (·.id)).map toString) <|>
            (result.chat_id.map IdVal.toStr) <|> some payload.chat_id.toStr
        ⟨true, messageId, chatId, none⟩

/-- Embeds `sendTgrelayText` from the api module: builds the `sendMessage`
payload and delegates to `sendToOutbound`. -/
def sendTgrelayText (chatId : IdVal) (text : String) (parseMode : Option String)
    (replyToMessageId : Option Int) (messageThreadId : Option Int)
    (disableNotification : Option Bool) (outboundUrl : Option String)
    (fetch : OutboundFetch) : TgrelaySendResult :=
  sendToOutbound outboundUrl
    { method := "sendMessage", chat_id := chatId, text := some text,
      caption := none, parse_mode := some (parseMode.getD "HTML"),
      reply_to_message_id := replyToMessageId,
      message_thread_id := messageThreadId,
      disable_notification := disableNotification }
    fetch

example :
    sendTgrelayText (.num 42) "hi" none none none none (some "http://relay")
      (.resp 200 "" (some ⟨some true, none, some 7, some (.num 42)⟩)) =
    ⟨true, some "7", some "42", none⟩ := by decide
example :
    sendTgrelayText (.num 42) "hi" none none none none none
      (.resp 200 "" (some ⟨some true, none, some 7, some (.num 42)⟩)) =
    ⟨false, none, none, some "outboundUrl not configured for tgrelay account"⟩ := by decide
example :
    sendToOutbound (some "u")
      ⟨"sendMessage", .num 5, some "x", none, none, none, none, none⟩
      (.resp 500 "boom" none) =
    ⟨false, none, none, some "HTTP 500: boom"⟩ := by decide
example :
    sendToOutbound (some "u")
      ⟨"sendMessage", .num 5, some "x", none, none, none, none, none⟩
      (.resp 200 "" (some ⟨some true, some ⟨some 9, some ⟨some 3⟩⟩, none, none⟩)) =
    ⟨true, some "9", some "3", none⟩ := by decide

theorem toDigitsCore_len_mono (b : Nat) : ∀ (f n : Nat) (l : List Char),
    l.length ≤ (Nat.toDigitsCore b f n l).length := by
  intro f
  induction f with
  | zero => intro n l; simp [Nat.toDigitsCore]
  | succ f ih =>
    intro n l
    simp only [Nat.toDigitsCore]
    split
    · simp
    · exact le_trans (by simp) (ih (n / b) (Nat.digitChar (n % b) :: l))

theorem natRepr_ne_empty (n : Nat) : Nat.repr n ≠ "" := by
  intro h
  have h2 := congrArg String.length h
  simp only [Nat.repr, Nat.toDigits, List.asString, String.length] at h2
  have h3 : (1 : Nat) ≤ (Nat.toDigitsCore 10 (n + 1) n []).length := by
    simp only [Nat.toDigitsCore]
    split
    · simp
    · exact le_trans (by simp) (toDigitsCore_len_mono 10 n (n / 10) [Nat.digitChar (n % 10)])
  simp only [List.length_nil] at h2
  omega

theorem intToString_ne_empty (n : Int) : toString n ≠ "" := by
  show Int.repr n ≠ ""
  cases n with
  | ofNat m => simpa [Int.repr] using natRepr_ne_empty m
  | negSucc m =>
    simp only [Int.repr]
    intro h
    have h2 := congrArg String.length h
    rw [String.length_append] at h2
    have h1 : ("-" : String).length = 1 := by decide
    have h0 : ("" : String).length = 0 := by decide
    omega

theorem bearer_ne_empty (v : String) : "Bearer " ++ v ≠ "" := by
  intro h
  have h2 := congrArg String.length h
  rw [String.length_append] at h2
  have h1 : ("Bearer " : String).length = 7 := by decide
  have h0 : ("" : String).length = 0 := by decide
  omega

/-- C1: for every configured secret and inbound request, the credential
verifier accepts iff the secret is unset (absent or empty, the code's own
falsiness test) or the request carries the secret in the dedicated
secret-token header, the `secret` query parameter, or an
`Authorization: Bearer` header; any request carrying only wrong values is
rejected. -/
theorem verifyInboundSecret_iff (req : CredHeaders) (s : Option String) :
    verifyInboundSecret req s = true ↔
      (isSecretUnset s = true ∨
       ∃ v, s = some v ∧
         (req.secretTokenHeader = some v ∨ req.querySecret = some v ∨
          req.authorizationHeader = some ("Bearer " ++ v))) := by
  cases s with
  | none => simp [verifyInboundSecret, isSecretUnset]
  | some v =>
    by_cases hv : v = ""
    · subst hv
      simp [verifyInboundSecret, isSecretUnset]
    · simp only [verifyInboundSecret, isSecretUnset, hv, if_false, decide_eq_true_eq]
      constructor
      · intro h
        split at h
        · exact Or.inr ⟨v, rfl, Or.inl (by assumption)⟩
        · split at h
          · exact Or.inr ⟨v, rfl, Or.inr (Or.inl (by assumption))⟩
          · split at h
            · rename_i hauth
              refine Or.inr ⟨v, rfl, Or.inr (Or.inr ?_)⟩
              cases hh : req.authorizationHeader with
              | none =>
                rw [hh] at hauth
                simp at hauth
                exact absurd hauth.symm (bearer_ne_empty v)
              | some a =>
                rw [hh] at hauth
                simp at hauth
                rw [hauth]
            · exact absurd h (by simp)
      · rintro (h | ⟨w, hw, hcase⟩)
        · simp_all
        · obtain rfl : w = v := by injection hw with h; exact h.symm
          rcases hcase with h1 | h2 | h3
          · simp [h1]
          · by_cases hA : req.secretTokenHeader = some w
            · simp [hA]
            · simp [hA, h2]
          · by_cases hA : req.secretTokenHeader = some w
            · simp [hA]
            · by_cases hB : req.querySecret = some w
              · simp [hA, hB]
              · simp [hA, hB, h3]

/-- C4 counterexample: the claim's "if and only if" fails. The allowlist
entry `tgrelay:123` matches sender id 123 in the code (via its
channel-scheme stripping rule), while under the claim's matching rule
(wildcard, or trim/lowercase/at-strip equality with the id or username,
here as `specSenderMatch` and spelled out as a proposition) it does not
match. -/
theorem isSenderAllowed_claim_counterexample :
    isSenderAllowed (.num 123) none [.str "tgrelay:123"] = true ∧
    specSenderMatch (.num 123) none [.str "tgrelay:123"] = false ∧
    ¬(([IdVal.str "tgrelay:123"].contains (IdVal.str "*") = true) ∨
      ∃ e ∈ [IdVal.str "tgrelay:123"],
        (jsStripAt (jsToLower (jsTrim e.toStr)) = normalizeUserId (some (.num 123)) ∨
         ∃ un, (none : Option String) = some un ∧
           jsStripAt (jsToLower (jsTrim e.toStr)) = jsStripAt (jsToLower (jsTrim un)))) := by
  refine ⟨by decide, by decide, ?_⟩
  rintro (h | ⟨e, he, hcase⟩)
  · exact absurd h (by decide)
  · simp only [List.mem_singleton] at he
    subst he
    rcases hcase with h1 | ⟨un, hun, _⟩
    · exact absurd h1 (by decide)
    · exact Option.noConfusion hun

/-- C4 (amended): a sender matches an allow set iff the set contains the
literal `"*"`, or some entry — after trimming, lowercasing and stripping a
leading `@` — is nonempty and equals the sender id as a string, equals the
sender's username normalized the same way (when that is nonempty), or,
after additionally stripping a leading `tgrelay:` / `telegram-relay:` /
`tg-relay:` channel scheme, equals the sender id as a string. In
particular entries `Bob`, `bob` and `@bob` all match username `bob`. -/
theorem isSenderAllowed_amended :
    (∀ (sid : IdVal) (u : Option String) (allow : List IdVal),
      isSenderAllowed sid u allow = true ↔
        (allow.contains (.str "*") = true ∨
         ∃ e ∈ allow,
           jsStripAt (jsToLower (jsTrim e.toStr)) ≠ "" ∧
           (jsStripAt (jsToLower (jsTrim e.toStr)) = normalizeUserId (some sid) ∨
            (∃ un, u = some un ∧ jsStripAt (jsToLower (jsTrim un)) ≠ "" ∧
              jsStripAt (jsToLower (jsTrim e.toStr)) = jsStripAt (jsToLower (jsTrim un))) ∨
            stripChannelScheme (jsStripAt (jsToLower (jsTrim e.toStr))) =
              normalizeUserId (some sid)))) ∧
    isSenderAllowed (.num 1) (some "bob") [.str "Bob"] = true ∧
    isSenderAllowed (.num 1) (some "bob") [.str "bob"] = true ∧
    isSenderAllowed (.num 1) (some "bob") [.str "@bob"] = true := by
  refine ⟨?_, by decide, by decide, by decide⟩
  intro sid u allow
  by_cases hw : allow.contains (.str "*")
  · constructor
    · intro _
      exact Or.inl hw
    · intro _
      simp only [isSenderAllowed]
      rw [hw]
      simp
  · simp only [isSenderAllowed, hw, Bool.false_eq_true, if_false, List.any_eq_true]
    constructor
    · rintro ⟨e, he, hm⟩
      refine Or.inr ⟨e, he, ?_⟩
      cases u with
      | none =>
        by_cases h0 : jsStripAt (jsToLower (jsTrim e.toStr)) = "" <;>
          by_cases h1 : jsStripAt (jsToLower (jsTrim e.toStr)) = normalizeUserId (some sid) <;>
          by_cases h3 : stripChannelScheme (jsStripAt (jsToLower (jsTrim e.toStr))) =
            normalizeUserId (some sid) <;>
          simp_all
      | some un =>
        by_cases h0 : jsStripAt (jsToLower (jsTrim e.toStr)) = "" <;>
          by_cases h1 : jsStripAt (jsToLower (jsTrim e.toStr)) = normalizeUserId (some sid) <;>
          by_cases h2 : jsStripAt (jsToLower (jsTrim un)) = "" <;>
          by_cases h2b : jsStripAt (jsToLower (jsTrim e.toStr)) = jsStripAt (jsToLower (jsTrim un)) <;>
          by_cases h3 : stripChannelScheme (jsStripAt (jsToLower (jsTrim e.toStr))) =
            normalizeUserId (some sid) <;>
          simp_all
    · rintro (hw2 | ⟨e, he, hne, hcase⟩)
      · exact absurd hw2 (by simp [hw])
      · refine ⟨e, he, ?_⟩
        cases u with
        | none =>
          rcases hcase with h1 | ⟨un, hun, _⟩ | h3
          · simp_all
          · exact absurd hun (by simp)
          · by_cases h1 : jsStripAt (jsToLower (jsTrim e.toStr)) = normalizeUserId (some sid) <;>
              simp_all
        | some un =>
          rcases hcase with h1 | ⟨un2, hun2, hne2, heq2⟩ | h3
          · simp_all
          · obtain rfl : un2 = un := by injection hun2 with h; exact h.symm
            by_cases h1 : jsStripAt (jsToLower (jsTrim e.toStr)) = normalizeUserId (some sid) <;>
              simp_all
          · by_cases h1 : jsStripAt (jsToLower (jsTrim e.toStr)) = normalizeUserId (some sid) <;>
              by_cases h2 : jsStripAt (jsToLower (jsTrim un)) = "" <;>
              by_cases h2b : jsStripAt (jsToLower (jsTrim e.toStr)) =
                jsStripAt (jsToLower (jsTrim un)) <;>
              simp_all

theorem lookupTargets_setTargets_self (reg : Registry) (key : String)
    (v : List WebhookTargetM) : lookupTargets (setTargets reg key v) key = some v := by
  unfold setTargets
  split
  · rename_i hany
    unfold lookupTargets
    induction reg with
    | nil => simp at hany
    | cons p rest ih =>
      by_cases hp : p.1 = key
      · simp [List.find?, hp]
      · rw [List.any_cons] at hany
        simp only [hp] at hany
        simp only [List.map_cons, if_neg hp]
        rw [List.find?]
        simp only [hp, decide_eq_false hp]
        exact ih (by simpa using hany)
  · unfold lookupTargets
    induction reg with
    | nil => simp [List.find?]
    | cons p rest ih =>
      rename_i hnone
      have hp : ¬p.1 = key := by
        intro hh
        exact hnone (by simp [List.any_cons, hh])
      rw [List.cons_append, List.find?]
      simp only [hp, decide_eq_false hp]
      exact ih (fun hc => hnone (by simp [List.any_cons]; right; simpa using hc))

theorem firstVerifiedIndex_eq_none (cred : CredHeaders) (ts : List WebhookTargetM) :
    firstVerifiedIndex cred ts = none ↔
      ∀ t ∈ ts, verifyInboundSecret cred t.inboundSecret = false := by
  induction ts with
  | nil => simp [firstVerifiedIndex]
  | cons t rest ih =>
    by_cases hv : verifyInboundSecret cred t.inboundSecret
    · simp [firstVerifiedIndex, hv]
    · simp only [firstVerifiedIndex]
      rw [if_neg hv]
      constructor
      · intro h
        have hrest : firstVerifiedIndex cred rest = none := by
          cases hx : firstVerifiedIndex cred rest
          · rfl
          · rw [hx] at h; simp at h
        intro t2 ht2
        rcases List.mem_cons.mp ht2 with rfl | hmem
        · simpa using hv
        · exact (ih.mp hrest) t2 hmem
      · intro h
        have := ih.mpr (fun t2 ht2 => h t2 (List.mem_cons_of_mem t ht2))
        simp [this]

theorem firstVerifiedIndex_spec (cred : CredHeaders) :
    ∀ (ts : List WebhookTargetM) (i : Nat), firstVerifiedIndex cred ts = some i →
      ∃ t, ts.get? i = some t ∧ verifyInboundSecret cred t.inboundSecret = true ∧
        ∀ j, j < i → ∀ t2, ts.get? j = some t2 →
          verifyInboundSecret cred t2.inboundSecret = false := by
  intro ts
  induction ts with
  | nil => intro i h; simp [firstVerifiedIndex] at h
  | cons t rest ih =>
    intro i h
    by_cases hv : verifyInboundSecret cred t.inboundSecret
    · simp only [firstVerifiedIndex] at h
      rw [if_pos hv] at h
      obtain rfl : i = 0 := by injection h with h; exact h.symm
      exact ⟨t, by simp, hv, fun j hj => absurd hj (Nat.not_lt_zero j)⟩
    · simp only [firstVerifiedIndex] at h
      rw [if_neg hv] at h
      cases hrest : firstVerifiedIndex cred rest with
      | none => rw [hrest] at h; simp at h
      | some i2 =>
        rw [hrest] at h
        simp at h
        obtain ⟨t2, hg, hvt, hlt⟩ := ih i2 hrest
        refine ⟨t2, ?_, hvt, ?_⟩
        · rw [← h]; simpa using hg
        · intro j hj t3 ht3
          cases j with
          | zero =>
            simp at ht3
            rw [← ht3]
            simpa using hv
          | succ j2 =>
            have hj2 : j2 < i2 := by omega
            exact hlt j2 hj2 t3 (by simpa using ht3)

/-- C2: for a request whose normalized path has at least one registered
target, a non-POST method yields 405 with an `Allow: POST` header; a body
over 1 MiB yields 413; an empty body, invalid JSON, non-object JSON, or a
missing/non-numeric `update_id` yields 400; otherwise the targets at the
path are tried in registration order (registering appends to the path's
list) and the first whose credential check passes is selected - none
passing yields 401, one passing yields 200 with body `\x7b\x7d` together
with the spawned processing index (the response is produced by the handler
itself, independent of the spawned processing). A request whose path has
no registered target is declared unhandled. -/
theorem handleTgrelayWebhookRequest_cases (reg : Registry) (req : HttpRequestM) :
    (((lookupTargets reg (normalizeWebhookPath req.path)).getD []) = [] →
      handleTgrelayWebhookRequest reg req = .unhandled) ∧
    (∀ ts, lookupTargets reg (normalizeWebhookPath req.path) = some ts → ts ≠ [] →
      ((req.method ≠ "POST" →
         handleTgrelayWebhookRequest reg req =
           .handled ⟨405, some "POST", none, "Method Not Allowed"⟩ none) ∧
       (req.method = "POST" →
        ((∀ len j, req.body = .valid len j → 1024 * 1024 < len →
           handleTgrelayWebhookRequest reg req =
             .handled ⟨413, none, none, "payload too large"⟩ none) ∧
         (∀ len msg, req.body = .invalid len msg → 1024 * 1024 < len →
           handleTgrelayWebhookRequest reg req =
             .handled ⟨413, none, none, "payload too large"⟩ none) ∧
         (∀ len, req.body = .empty len → len ≤ 1024 * 1024 →
           handleTgrelayWebhookRequest reg req =
             .handled ⟨400, none, none, "empty payload"⟩ none) ∧
         (∀ len msg, req.body = .invalid len msg → len ≤ 1024 * 1024 →
           msg ≠ "payload too large" →
           handleTgrelayWebhookRequest reg req = .handled ⟨400, none, none, msg⟩ none) ∧
         (∀ len j, req.body = .valid len j → len ≤ 1024 * 1024 →
           (∀ fields, j ≠ .obj fields) →
           handleTgrelayWebhookRequest reg req =
             .handled ⟨400, none, none, "invalid payload"⟩ none) ∧
         (∀ len fields, req.body = .valid len (.obj fields) → len ≤ 1024 * 1024 →
           (∀ n, Json.lookupField fields "update_id" ≠ some (.num n)) →
           handleTgrelayWebhookRequest reg req =
             .handled ⟨400, none, none, "invalid payload: missing update_id"⟩ none) ∧
         (∀ len fields n, req.body = .valid len (.obj fields) → len ≤ 1024 * 1024 →
           Json.lookupField fields "update_id" = some (.num n) →
           (((∀ t ∈ ts, verifyInboundSecret req.cred t.inboundSecret = false) →
              handleTgrelayWebhookRequest reg req =
                .handled ⟨401, none, none, "unauthorized"⟩ none) ∧
            (∀ i, firstVerifiedIndex req.cred ts = some i →
              handleTgrelayWebhookRequest reg req =
                .handled ⟨200, none, some "application/json", "\x7b\x7d"⟩ (some i) ∧
              ∃ t, ts.get? i = some t ∧
                verifyInboundSecret req.cred t.inboundSecret = true ∧
                ∀ j, j < i → ∀ t2, ts.get? j = some t2 →
                  verifyInboundSecret req.cred t2.inboundSecret = false))))))) ∧
    (∀ (path2 : String) (t : WebhookTargetM),
      lookupTargets (registerTgrelayWebhookTarget reg path2 t) (normalizeWebhookPath path2) =
        some (((lookupTargets reg (normalizeWebhookPath path2)).getD []) ++ [t])) := by
  refine ⟨?_, ?_, ?_⟩
  · intro h
    cases hlk : lookupTargets reg (normalizeWebhookPath req.path) with
    | none => simp [handleTgrelayWebhookRequest, hlk]
    | some l =>
      rw [hlk] at h
      simp only [Option.getD_some] at h
      simp [handleTgrelayWebhookRequest, hlk, h]
  · intro ts hlk hne
    have hisEmpty : ts.isEmpty = false := by
      cases ts
      · exact absurd rfl hne
      · rfl
    constructor
    · intro hm
      simp [handleTgrelayWebhookRequest, hlk, hisEmpty, hne, hm]
    · intro hm
      refine ⟨?_, ?_, ?_, ?_, ?_, ?_, ?_⟩
      · intro len j hb hlen
        simp [handleTgrelayWebhookRequest, hlk, hisEmpty, hne, hm, hb, readJsonBody, hlen]
      · intro len msg hb hlen
        simp [handleTgrelayWebhookRequest, hlk, hisEmpty, hne, hm, hb, readJsonBody, hlen]
      · intro len hb hlen
        simp [handleTgrelayWebhookRequest, hlk, hisEmpty, hne, hm, hb, readJsonBody,
          Nat.not_lt.mpr hlen]
      · intro len msg hb hlen hmsg
        simp [handleTgrelayWebhookRequest, hlk, hisEmpty, hne, hm, hb, readJsonBody,
          Nat.not_lt.mpr hlen, hmsg]
      · intro len j hb hlen hnobj
        cases j with
        | obj fields => exact absurd rfl (hnobj fields)
        | null =>
          simp [handleTgrelayWebhookRequest, hlk, hisEmpty, hne, hm, hb, readJsonBody,
            Nat.not_lt.mpr hlen]
        | bool b =>
          simp [handleTgrelayWebhookRequest, hlk, hisEmpty, hne, hm, hb, readJsonBody,
            Nat.not_lt.mpr hlen]
        | num n =>
          simp [handleTgrelayWebhookRequest, hlk, hisEmpty, hne, hm, hb, readJsonBody,
            Nat.not_lt.mpr hlen]
        | str s =>
          simp [handleTgrelayWebhookRequest, hlk, hisEmpty, hne, hm, hb, readJsonBody,
            Nat.not_lt.mpr hlen]
        | arr xs =>
          simp [handleTgrelayWebhookRequest, hlk, hisEmpty, hne, hm, hb, readJsonBody,
            Nat.not_lt.mpr hlen]
      · intro len fields hb hlen hnum
        cases hlf : Json.lookupField fields "update_id" with
        | none =>
          simp [handleTgrelayWebhookRequest, hlk, hisEmpty, hne, hm, hb, readJsonBody,
            Nat.not_lt.mpr hlen, hlf]
        | some jv =>
          cases jv with
          | num n => exact absurd hlf (hnum n)
          | null =>
            simp [handleTgrelayWebhookRequest, hlk, hisEmpty, hne, hm, hb, readJsonBody,
              Nat.not_lt.mpr hlen, hlf]
          | bool b =>
            simp [handleTgrelayWebhookRequest, hlk, hisEmpty, hne, hm, hb, readJsonBody,
              Nat.not_lt.mpr hlen, hlf]
          | str s =>
            simp [handleTgrelayWebhookRequest, hlk, hisEmpty, hne, hm, hb, readJsonBody,
              Nat.not_lt.mpr hlen, hlf]
          | arr xs =>
            simp [handleTgrelayWebhookRequest, hlk, hisEmpty, hne, hm, hb, readJsonBody,
              Nat.not_lt.mpr hlen, hlf]
          | obj fs =>
            simp [handleTgrelayWebhookRequest, hlk, hisEmpty, hne, hm, hb, readJsonBody,
              Nat.not_lt.mpr hlen, hlf]
      · intro len fields n hb hlen hnum
        constructor
        · intro hall
          have hnone : firstVerifiedIndex req.cred ts = none :=
            (firstVerifiedIndex_eq_none req.cred ts).mpr hall
          simp [handleTgrelayWebhookRequest, hlk, hisEmpty, hne, hm, hb, readJsonBody,
            Nat.not_lt.mpr hlen, hnum, hnone]
        · intro i hi
          refine ⟨?_, firstVerifiedIndex_spec req.cred ts i hi⟩
          simp [handleTgrelayWebhookRequest, hlk, hisEmpty, hne, hm, hb, readJsonBody,
            Nat.not_lt.mpr hlen, hnum, hi]
  · intro path2 t
    unfold registerTgrelayWebhookTarget
    exact lookupTargets_setTargets_self reg (normalizeWebhookPath path2) _

/-- Witness for C2 at a concrete registry and request: trailing slash is
normalized away, the first target's secret does not match, the second
does, and the accepted update yields 200 with the empty-object body. -/
theorem handleTgrelayWebhookRequest_cases_witness :
    handleTgrelayWebhookRequest [("/tgrelay", [⟨some "x"⟩, ⟨some "s"⟩])]
      ⟨"POST", "/tgrelay/", ⟨some "s", none, none⟩, .valid 25 (.obj [("update_id", .num 7)])⟩ =
      .handled ⟨200, none, some "application/json", "\x7b\x7d"⟩ (some 1) := by
  have h := handleTgrelayWebhookRequest_cases [("/tgrelay", [⟨some "x"⟩, ⟨some "s"⟩])]
    ⟨"POST", "/tgrelay/", ⟨some "s", none, none⟩, .valid 25 (.obj [("update_id", .num 7)])⟩
  have h2 := ((h.2.1 [⟨some "x"⟩, ⟨some "s"⟩] (by decide) (by decide)).2 rfl).2.2.2.2.2.2
  exact ((h2 25 [("update_id", .num 7)] 7 rfl (by decide) rfl).2 1 (by decide)).1

theorem resolveGroupConfig_entry_isSome (gid : IdVal) (title : Option String)
    (groups : Option (List (String × GroupEntryCfg)))
    (hne : groups.getD [] ≠ []) (hgid : gid.toStr ≠ "") :
    ((resolveGroupConfig gid title groups).entry.isSome = true) ↔
      ((lookupGroupEntry (groups.getD []) gid.toStr).isSome = true ∨
       (∃ s, title = some s ∧ s ≠ "" ∧
         (lookupGroupEntry (groups.getD []) s).isSome = true) ∨
       (∃ s, title = some s ∧ jsToLower (jsTrim s) ≠ "" ∧
         (lookupGroupEntry (groups.getD []) (jsToLower (jsTrim s))).isSome = true) ∨
       (lookupGroupEntry (groups.getD []) "*").isSome = true) := by
  have hlen : ¬(groups.getD []).length = 0 := by
    cases h : groups.getD []
    · exact absurd h hne
    · simp [h]
  cases title with
  | none =>
    simp only [resolveGroupConfig, hlen, if_false]
    simp [hgid]
    cases h1 : lookupGroupEntry (groups.getD []) gid.toStr <;>
      cases h4 : lookupGroupEntry (groups.getD []) "*" <;>
        simp [List.findSome?_cons, h1, h4]
  | some s =>
    by_cases hs : s = ""
    · subst hs
      simp only [resolveGroupConfig, hlen, if_false]
      simp [hgid, jsTrim, jsToLower]
      cases h1 : lookupGroupEntry (groups.getD []) gid.toStr <;>
        cases h4 : lookupGroupEntry (groups.getD []) "*" <;>
          simp [List.findSome?_cons, h1, h4]
    · by_cases hns : jsToLower (jsTrim s) = ""
      · simp only [resolveGroupConfig, hlen, if_false]
        simp [hgid, hs, hns]
        cases h1 : lookupGroupEntry (groups.getD []) gid.toStr <;>
          cases h2 : lookupGroupEntry (groups.getD []) s <;>
            cases h4 : lookupGroupEntry (groups.getD []) "*" <;>
              simp [List.findSome?_cons, h1, h2, h4, hns]
      · simp only [resolveGroupConfig, hlen, if_false]
        simp [hgid, hs, hns]
        cases h1 : lookupGroupEntry (groups.getD []) gid.toStr <;>
          cases h2 : lookupGroupEntry (groups.getD []) s <;>
            cases h3 : lookupGroupEntry (groups.getD []) (jsToLower (jsTrim s)) <;>
              cases h4 : lookupGroupEntry (groups.getD []) "*" <;>
                simp [List.findSome?_cons, h1, h2, h3, h4, hns]

theorem resolveGroupConfig_exact_priority (gid : IdVal) (title : Option String)
    (groups : Option (List (String × GroupEntryCfg))) (hgid : gid.toStr ≠ "")
    (e : GroupEntryCfg)
    (h : lookupGroupEntry (groups.getD []) gid.toStr = some e) :
    (resolveGroupConfig gid title groups).entry = some e := by
  have hlen : ¬(groups.getD []).length = 0 := by
    cases hg : groups.getD []
    · rw [hg] at h; simp [lookupGroupEntry, List.find?] at h
    · simp [hg]
  simp only [resolveGroupConfig, hlen, if_false]
  simp [hgid, List.findSome?_cons, h]

theorem lookupGroupEntry_ne_nil {entries : List (String × GroupEntryCfg)} {k : String}
    {e : GroupEntryCfg} (h : lookupGroupEntry entries k = some e) : entries ≠ [] := by
  intro hnil
  rw [hnil] at h
  simp [lookupGroupEntry, List.find?] at h

theorem resolveGroupConfig_title_priority (gid : IdVal) (s : String)
    (groups : Option (List (String × GroupEntryCfg))) (hgid : gid.toStr ≠ "")
    (hs : s ≠ "") (e : GroupEntryCfg)
    (h1 : lookupGroupEntry (groups.getD []) gid.toStr = none)
    (h2 : lookupGroupEntry (groups.getD []) s = some e) :
    (resolveGroupConfig gid (some s) groups).entry = some e := by
  have hlen : ¬(groups.getD []).length = 0 := by
    cases hg : groups.getD []
    · exact absurd hg (lookupGroupEntry_ne_nil h2)
    · simp [hg]
  simp only [resolveGroupConfig, hlen, if_false]
  by_cases hns : jsToLower (jsTrim s) = "" <;>
    simp [hgid, hs, hns, List.findSome?_cons, h1, h2]

theorem resolveGroupConfig_normTitle_priority (gid : IdVal) (s : String)
    (groups : Option (List (String × GroupEntryCfg))) (hgid : gid.toStr ≠ "")
    (hs : s ≠ "") (hns : jsToLower (jsTrim s) ≠ "") (e : GroupEntryCfg)
    (h1 : lookupGroupEntry (groups.getD []) gid.toStr = none)
    (h2 : lookupGroupEntry (groups.getD []) s = none)
    (h3 : lookupGroupEntry (groups.getD []) (jsToLower (jsTrim s)) = some e) :
    (resolveGroupConfig gid (some s) groups).entry = some e := by
  have hlen : ¬(groups.getD []).length = 0 := by
    cases hg : groups.getD []
    · exact absurd hg (lookupGroupEntry_ne_nil h3)
    · simp [hg]
  simp only [resolveGroupConfig, hlen, if_false]
  simp [hgid, hs, hns, List.findSome?_cons, h1, h2, h3]

theorem resolveGroupConfig_wildcard_only_fallback (gid : IdVal) (title : Option String)
    (groups : Option (List (String × GroupEntryCfg))) (hgid : gid.toStr ≠ "")
    (h1 : lookupGroupEntry (groups.getD []) gid.toStr = none)
    (h2 : ∀ s, title = some s → lookupGroupEntry (groups.getD []) s = none)
    (h3 : ∀ s, title = some s →
      lookupGroupEntry (groups.getD []) (jsToLower (jsTrim s)) = none) :
    (resolveGroupConfig gid title groups).entry =
      lookupGroupEntry (groups.getD []) "*" := by
  by_cases hlen0 : (groups.getD []).length = 0
  · have hempty : groups.getD [] = [] := by
      cases hg : groups.getD []
      · rfl
      · rw [hg] at hlen0; simp at hlen0
    simp [resolveGroupConfig, hlen0, hempty, lookupGroupEntry, List.find?]
  · simp only [resolveGroupConfig, hlen0, if_false]
    cases title with
    | none => simp [hgid, List.findSome?_cons, h1]
    | some s =>
      have h2s := h2 s rfl
      have h3s := h3 s rfl
      by_cases hs : s = ""
      · subst hs
        simp [hgid, jsTrim, jsToLower, List.findSome?_cons, h1]
      · by_cases hns : jsToLower (jsTrim s) = ""
        · simp [hgid, hs, hns, List.findSome?_cons, h1, h2s]
        · simp [hgid, hs, hns, List.findSome?_cons, h1, h2s, h3s]

/-- C3: under group policy `allowlist`, a group/supergroup/channel message
with zero configured group entries is rejected (fail-closed) whatever the
chat id; with entries configured, the message passes the group-allowlist
gate iff an entry matches by exact chat id, by title (raw or normalized),
or via the wildcard entry; resolution priority is exact chat id, then raw
title, then normalized title, each winning over the wildcard; and the
wildcard entry is the resolved entry only when no chat-id or title
candidate matches at all - it never overrides an exact match. -/
theorem processMessageWithPipeline_groupAllowlist (msg : TgrelayMessageM)
    (account : TgrelayAccountConfigM) (cfg : PipelineCfg) (o : CoreOracles)
    (chat : TgChat)
    (hchat : msg.chat = some chat)
    (hg : chat.type = .group ∨ chat.type = .supergroup ∨ chat.type = .channel)
    (hbot : (msg.from_.map (·.is_bot)).getD false = false)
    (htext : jsTrim ((msg.text <|> msg.caption).getD "") ≠ "")
    (hpol : (account.groupPolicy <|> cfg.defaultGroupPolicy).getD "allowlist" = "allowlist") :
    (account.groups.getD [] = [] →
      processMessageWithPipeline msg account cfg o = .dropGroupNoAllowlist) ∧
    (account.groups.getD [] ≠ [] →
      ((processMessageWithPipeline msg account cfg o ≠ .dropGroupNoAllowlist ∧
        processMessageWithPipeline msg account cfg o ≠ .dropGroupNotAllowlisted) ↔
       ((lookupGroupEntry (account.groups.getD []) (IdVal.num chat.id).toStr).isSome = true ∨
        (∃ s, chat.title = some s ∧ s ≠ "" ∧
          (lookupGroupEntry (account.groups.getD []) s).isSome = true) ∨
        (∃ s, chat.title = some s ∧ jsToLower (jsTrim s) ≠ "" ∧
          (lookupGroupEntry (account.groups.getD [])
            (jsToLower (jsTrim s))).isSome = true) ∨
        (lookupGroupEntry (account.groups.getD []) "*").isSome = true))) ∧
    (∀ e, lookupGroupEntry (account.groups.getD []) (IdVal.num chat.id).toStr = some e →
      (resolveGroupConfig (.num chat.id) chat.title account.groups).entry = some e) ∧
    (∀ s e, chat.title = some s → s ≠ "" →
      lookupGroupEntry (account.groups.getD []) (IdVal.num chat.id).toStr = none →
      lookupGroupEntry (account.groups.getD []) s = some e →
      (resolveGroupConfig (.num chat.id) chat.title account.groups).entry = some e) ∧
    (∀ s e, chat.title = some s → s ≠ "" → jsToLower (jsTrim s) ≠ "" →
      lookupGroupEntry (account.groups.getD []) (IdVal.num chat.id).toStr = none →
      lookupGroupEntry (account.groups.getD []) s = none →
      lookupGroupEntry (account.groups.getD []) (jsToLower (jsTrim s)) = some e →
      (resolveGroupConfig (.num chat.id) chat.title account.groups).entry = some e) ∧
    (lookupGroupEntry (account.groups.getD []) (IdVal.num chat.id).toStr = none →
      (∀ s, chat.title = some s →
        lookupGroupEntry (account.groups.getD []) s = none) →
      (∀ s, chat.title = some s →
        lookupGroupEntry (account.groups.getD []) (jsToLower (jsTrim s)) = none) →
      (resolveGroupConfig (.num chat.id) chat.title account.groups).entry =
        lookupGroupEntry (account.groups.getD []) "*") := by
  have hgid : (IdVal.num chat.id).toStr ≠ "" := intToString_ne_empty chat.id
  refine ⟨?_, ?_, ?_, ?_, ?_, ?_⟩
  · intro hempty
    have hr : resolveGroupConfig (.num chat.id) chat.title account.groups =
        ⟨none, false, none⟩ := by
      simp [resolveGroupConfig, hempty]
    simp [processMessageWithPipeline, hchat, hg, hbot, htext, hpol, hr]
  · intro hlen
    have hconf : (resolveGroupConfig (.num chat.id) chat.title
        account.groups).allowlistConfigured = true := by
      have h0 : ¬(account.groups.getD []).length = 0 := by
        cases hx : account.groups.getD []
        · exact absurd hx hlen
        · simp [hx]
      simp only [resolveGroupConfig, h0, if_false]
    have hga_iff :
        ((resolveGroupConfig (.num chat.id) chat.title account.groups).entry.isSome = true ∨
          (lookupGroupEntry (account.groups.getD []) "*").isSome = true) ↔
        ((lookupGroupEntry (account.groups.getD []) (IdVal.num chat.id).toStr).isSome = true ∨
         (∃ s, chat.title = some s ∧ s ≠ "" ∧
           (lookupGroupEntry (account.groups.getD []) s).isSome = true) ∨
         (∃ s, chat.title = some s ∧ jsToLower (jsTrim s) ≠ "" ∧
           (lookupGroupEntry (account.groups.getD [])
             (jsToLower (jsTrim s))).isSome = true) ∨
         (lookupGroupEntry (account.groups.getD []) "*").isSome = true) := by
      have h1 := resolveGroupConfig_entry_isSome (.num chat.id) chat.title
        account.groups hlen hgid
      constructor
      · rintro (ha | hb)
        · rcases h1.mp ha with hd | hd | hd | hd
          · exact Or.inl hd
          · exact Or.inr (Or.inl hd)
          · exact Or.inr (Or.inr (Or.inl hd))
          · exact Or.inr (Or.inr (Or.inr hd))
        · exact Or.inr (Or.inr (Or.inr hb))
      · rintro (hd | hd | hd | hd)
        · exact Or.inl (h1.mpr (Or.inl hd))
        · exact Or.inl (h1.mpr (Or.inr (Or.inl hd)))
        · exact Or.inl (h1.mpr (Or.inr (Or.inr (Or.inl hd))))
        · exact Or.inr hd
    constructor
    · rintro ⟨h1, h2⟩
      by_cases hga :
          ((resolveGroupConfig (.num chat.id) chat.title account.groups).entry.isSome = true ∨
            (lookupGroupEntry (account.groups.getD []) "*").isSome = true)
      · exact hga_iff.mp hga
      · exfalso
        apply h2
        simp only [processMessageWithPipeline, hchat]
        simp [hg, hbot, htext, hpol, hconf, hga]
    · intro hD
      have hga := hga_iff.mpr hD
      constructor <;>
        · simp only [processMessageWithPipeline, hchat]
          simp [hg, hbot, htext, hpol, hconf, hga]
          split
          · rename_i out heq
            split_ifs at heq <;> (injection heq with heq; subst heq; decide)
          · repeat' split <;> simp_all
  · intro e he
    exact resolveGroupConfig_exact_priority (.num chat.id) chat.title account.groups hgid e he
  · intro s e hts hs h1 h2
    rw [hts]
    exact resolveGroupConfig_title_priority (.num chat.id) s account.groups hgid hs e h1 h2
  · intro s e hts hs hns h1 h2 h3
    rw [hts]
    exact resolveGroupConfig_normTitle_priority (.num chat.id) s account.groups hgid hs hns
      e h1 h2 h3
  · intro h1 h2 h3
    exact resolveGroupConfig_wildcard_only_fallback (.num chat.id) chat.title account.groups
      hgid h1 h2 h3

/-- Witness for C3: a group message under default (allowlist) policy with
no configured groups is dropped fail-closed, and for a chat titled "T"
with a disabled "T" entry plus a wildcard entry, the resolved entry is the
"T" entry - the wildcard does not override the title match. -/
theorem processMessageWithPipeline_groupAllowlist_witness :
    processMessageWithPipeline
      ⟨1, some ⟨-5, .group, some "T"⟩, some ⟨555, none, none, none, false⟩, some "hi",
        none, none, none, none, false, false, false, false, false, none⟩
      ⟨none, none, none, none, none, none⟩ ⟨none, true⟩
      ⟨false, [], fun _ _ _ => false, false, false, fun _ => ⟨false, false⟩, false, true⟩ =
      .dropGroupNoAllowlist ∧
    (resolveGroupConfig (.num (-5)) (some "T")
      (some [("T", ⟨some false, none, none, none, none⟩),
             ("*", ⟨none, none, none, none, none⟩)])).entry =
      some ⟨some false, none, none, none, none⟩ := by
  constructor
  · exact (processMessageWithPipeline_groupAllowlist
      ⟨1, some ⟨-5, .group, some "T"⟩, some ⟨555, none, none, none, false⟩, some "hi",
        none, none, none, none, false, false, false, false, false, none⟩
      ⟨none, none, none, none, none, none⟩ ⟨none, true⟩
      ⟨false, [], fun _ _ _ => false, false, false, fun _ => ⟨false, false⟩, false, true⟩
      ⟨-5, .group, some "T"⟩ rfl (Or.inl rfl) rfl (by decide) rfl).1 rfl
  · exact (processMessageWithPipeline_groupAllowlist
      ⟨1, some ⟨-5, .group, some "T"⟩, some ⟨555, none, none, none, false⟩, some "hi",
        none, none, none, none, false, false, false, false, false, none⟩
      ⟨none, none,
        some [("T", ⟨some false, none, none, none, none⟩),
              ("*", ⟨none, none, none, none, none⟩)], none, none, none⟩ ⟨none, true⟩
      ⟨false, [], fun _ _ _ => false, false, false, fun _ => ⟨false, false⟩, false, true⟩
      ⟨-5, .group, some "T"⟩ rfl (Or.inl rfl) rfl (by decide) rfl).2.2.2.1
      "T" ⟨some false, none, none, none, none⟩ rfl (by decide) (by decide) (by decide)

theorem isSenderAllowed_append (sid : IdVal) (u : Option String) (a b : List IdVal) :
    isSenderAllowed sid u (a ++ b) =
      (isSenderAllowed sid u a || isSenderAllowed sid u b) := by
  unfold isSenderAllowed
  by_cases h1 : a.contains (.str "*") <;> by_cases h2 : b.contains (.str "*") <;>
    simp_all [List.any_append, List.contains_eq_any_beq]

/-- C7: a private (DM) message under effective dm policy `pairing` from a
non-bot sender matching neither the configured allowlist nor the pairing
store's allow entries resolves to a pairing request: the store upsert runs
for that sender, a pairing-code reply is attempted iff the request was
newly created (the store's `created` flag), and the outcome is never
`dispatched`, so the message does not reach the agent-routing
collaborator. -/
theorem processMessageWithPipeline_dmPairing (msg : TgrelayMessageM)
    (account : TgrelayAccountConfigM) (cfg : PipelineCfg) (o : CoreOracles)
    (chat : TgChat) (sender : TgUser)
    (hchat : msg.chat = some chat)
    (hpriv : chat.type = .private_)
    (hsender : msg.from_ = some sender)
    (hbot : sender.is_bot = false)
    (htext : jsTrim ((msg.text <|> msg.caption).getD "") ≠ "")
    (hdm : (account.dm.bind (·.policy)).getD "pairing" = "pairing")
    (hnal1 : isSenderAllowed (.num sender.id) sender.username
      ((account.dm.bind (·.allowFrom)).getD []) = false)
    (hnal2 : isSenderAllowed (.num sender.id) sender.username o.storeAllowFrom = false) :
    processMessageWithPipeline msg account cfg o =
      .pairingRequest (toString sender.id) o.pairingCreated o.pairingCreated := by
  have hdm2 : account.dm.bind (·.policy) ≠ some "open" := by
    intro hcon
    rw [hcon] at hdm
    simp at hdm
  simp [processMessageWithPipeline, hchat, hpriv, hsender, hbot, htext, hdm, hdm2,
    isSenderAllowed_append, hnal1, hnal2]

/-- Witness for C7: sender id 555 with no prior pairing record sends "hi"
under default pairing policy; the store reports a newly created request,
so exactly one pairing-code reply is attempted and the message is not
dispatched. -/
theorem processMessageWithPipeline_dmPairing_witness :
    processMessageWithPipeline
      ⟨1, some ⟨1, .private_, none⟩, some ⟨555, none, some "A", none, false⟩, some "hi",
        none, none, none, none, false, false, false, false, false, none⟩
      ⟨none, none, none, none, none, none⟩ ⟨none, true⟩
      ⟨false, [], fun _ _ _ => false, false, false, fun _ => ⟨false, false⟩, false, true⟩ =
      .pairingRequest "555" true true := by
  exact processMessageWithPipeline_dmPairing
    ⟨1, some ⟨1, .private_, none⟩, some ⟨555, none, some "A", none, false⟩, some "hi",
      none, none, none, none, false, false, false, false, false, none⟩
    ⟨none, none, none, none, none, none⟩ ⟨none, true⟩
    ⟨false, [], fun _ _ _ => false, false, false, fun _ => ⟨false, false⟩, false, true⟩
    ⟨1, .private_, none⟩ ⟨555, none, some "A", none, false⟩ rfl rfl rfl rfl
    (by decide) rfl (by decide) (by decide)

theorem pipeline_ne_botSkip_of_cond (msg : TgrelayMessageM)
    (account : TgrelayAccountConfigM) (cfg : PipelineCfg) (o : CoreOracles)
    (chat : TgChat) (hchat : msg.chat = some chat)
    (hcond : ¬(¬(account.dm.bind (·.policy) = some "open") ∧
      (msg.from_.map (·.is_bot)).getD false = true)) :
    processMessageWithPipeline msg account cfg o ≠ .skippedBotSender := by
  simp only [processMessageWithPipeline, hchat]
  rw [if_neg hcond]
  by_cases hisg : (chat.type = ChatType.group ∨ chat.type = ChatType.supergroup ∨
      chat.type = ChatType.channel) <;>
    by_cases hraw : jsTrim ((msg.text <|> msg.caption).getD "") = "" <;>
      simp [hisg, hraw] <;>
      first
      | (split
         · rename_i out heq
           intro hcontra
           subst hcontra
           split_ifs at heq <;> simp at heq
         · split_ifs <;> simp)
      | (split_ifs <;> simp)

/-- C10: a message (in any chat type, groups included) is skipped as
bot-authored exactly when its sender has `is_bot` and the account's
dm policy is not exactly `open`; the skip happens before any
access-control, mention-gate or pairing evaluation (it is a distinct
early outcome), and it is the dm policy, not the group configuration,
that governs this. -/
theorem processMessageWithPipeline_botSkip (msg : TgrelayMessageM)
    (account : TgrelayAccountConfigM) (cfg : PipelineCfg) (o : CoreOracles)
    (chat : TgChat) (hchat : msg.chat = some chat) :
    processMessageWithPipeline msg account cfg o = .skippedBotSender ↔
      ((msg.from_.map (·.is_bot)).getD false = true ∧
        account.dm.bind (·.policy) ≠ some "open") := by
  constructor
  · intro hout
    by_contra hcon
    rw [not_and_or] at hcon
    have hcond : ¬(¬(account.dm.bind (·.policy) = some "open") ∧
        (msg.from_.map (·.is_bot)).getD false = true) := by
      rcases hcon with h | h
      · intro hpair
        exact h hpair.2
      · intro hpair
        exact hpair.1 (not_not.mp h)
    exact pipeline_ne_botSkip_of_cond msg account cfg o chat hchat hcond hout
  · rintro ⟨hb, hp⟩
    simp only [processMessageWithPipeline, hchat]
    rw [if_pos ⟨hp, hb⟩]

/-- Witness for C10: a bot-authored message in a group chat is skipped
under the default dm policy even though the group is allowlisted. -/
theorem processMessageWithPipeline_botSkip_witness :
    processMessageWithPipeline
      ⟨1, some ⟨-5, .group, some "T"⟩, some ⟨555, none, none, none, true⟩, some "hi",
        none, none, none, none, false, false, false, false, false, none⟩
      ⟨none, none, some [("-5", ⟨none, none, none, none, none⟩)], none, none, none⟩
      ⟨none, true⟩
      ⟨false, [], fun _ _ _ => false, false, false, fun _ => ⟨false, false⟩, false, true⟩ =
      .skippedBotSender := by
  exact (processMessageWithPipeline_botSkip
    ⟨1, some ⟨-5, .group, some "T"⟩, some ⟨555, none, none, none, true⟩, some "hi",
      none, none, none, none, false, false, false, false, false, none⟩
    ⟨none, none, some [("-5", ⟨none, none, none, none, none⟩)], none, none, none⟩
    ⟨none, true⟩
    ⟨false, [], fun _ _ _ => false, false, false, fun _ => ⟨false, false⟩, false, true⟩
    ⟨-5, .group, some "T"⟩ rfl).mpr ⟨rfl, by decide⟩

theorem noFileFields_foldl_setKey :
    ∀ (l acc : List (String × RpcValue)), noFileFields l = true →
      noFileFields acc = true →
      noFileFields (l.foldl (fun acc p => setKey acc p.1 p.2) acc) = true := by
  intro l
  induction l with
  | nil => intro acc _ hacc; simpa using hacc
  | cons p rest ih =>
    intro acc hl hacc
    rw [noFileFields_cons, Bool.and_eq_true] at hl
    rw [List.foldl_cons]
    exact ih _ hl.2 (noFileFields_setKey hacc hl.1)

/-- C5: the payload pre-pass leaves no raw attachment anywhere in the
processed payload - direct fields, nested objects, and arrays (media
groups) included - and consequently every JSON body the RPC transformer
posts to the RPC URL is free of raw attachments: every one has been
replaced by a base64/filename `file_data` structure. -/
theorem processPayloadForRpc_no_raw_attachment :
    (∀ payload, noFileFields (processPayloadForRpc payload) = true) ∧
    (∀ opts method payload fetch prevResult,
      ((rpcTransformerCall opts method payload fetch prevResult).sentBody.map
        noFileFields).getD true = true) := by
  refine ⟨processPayloadForRpc_noFile, ?_⟩
  intro opts method payload fetch prevResult
  unfold rpcTransformerCall
  split
  · rfl
  · cases payload with
    | some p =>
      have hbody : noFileFields (spreadWithMethod method (processPayloadForRpc p)) = true := by
        unfold spreadWithMethod
        exact noFileFields_foldl_setKey _ _ (processPayloadForRpc_noFile p)
          (by simp [noFileFields, RpcValue.noFile])
      cases fetch with
      | resp status rbody =>
        by_cases hok : 200 ≤ status ∧ status ≤ 299
        · simp [hok, hbody]
        · simp [hok, hbody]
      | netError msg => simp [hbody]
    | none =>
      have hbody : noFileFields (spreadWithMethod method []) = true := by
        unfold spreadWithMethod
        exact noFileFields_foldl_setKey _ _ rfl (by simp [noFileFields, RpcValue.noFile])
      cases fetch with
      | resp status rbody =>
        by_cases hok : 200 ≤ status ∧ status ≤ 299
        · simp [hok, hbody]
        · simp [hok, hbody]
      | netError msg => simp [hbody]

/-- C6: a method in the exclusion set is never sent to the RPC URL and
falls through to `prev`; for a non-excluded method, a non-2xx response
yields the typed `httpError` failure carrying the status, with exactly one
RPC request and exactly one `onError` invocation fired after the request
and before the failure propagates (the transformer itself never retries). -/
theorem rpcTransformerCall_exclusion_and_http_failure
    (opts : RpcTransformerOpts) (method : String)
    (payload : Option (List (String × RpcValue))) (fetch : RpcFetchOutcome)
    (prevResult : Json) :
    (opts.excludeMethods.contains method = true →
      (rpcTransformerCall opts method payload fetch prevResult).events =
        [.prevCall method] ∧
      (rpcTransformerCall opts method payload fetch prevResult).sentBody = none ∧
      (rpcTransformerCall opts method payload fetch prevResult).result =
        .ok prevResult) ∧
    (opts.excludeMethods.contains method = false →
      ∀ status rbody, fetch = .resp status rbody → ¬(200 ≤ status ∧ status ≤ 299) →
        (rpcTransformerCall opts method payload fetch prevResult).result =
          .error (.httpError status) ∧
        (rpcTransformerCall opts method payload fetch prevResult).events =
          [.rpcSend, .onError method]) := by
  constructor
  · intro hexc
    unfold rpcTransformerCall
    rw [if_pos hexc]
    exact ⟨rfl, rfl, rfl⟩
  · intro hexc status rbody hf hst
    subst hf
    have hne : ¬(opts.excludeMethods.contains method = true) := by
      rw [hexc]
      simp
    unfold rpcTransformerCall
    rw [if_neg hne]
    simp [hst]

/-- Witness for C6: `getMe` in the exclusion set falls through to `prev`
with no RPC request; a non-excluded `sendMessage` meeting a 500 raises the
typed failure and fires the hook exactly once. -/
theorem rpcTransformerCall_exclusion_and_http_failure_witness :
    ((rpcTransformerCall ⟨"http://rpc", ["getMe"], none⟩ "getMe" none
        (.resp 500 .null) .null).events = [.prevCall "getMe"] ∧
     (rpcTransformerCall ⟨"http://rpc", ["getMe"], none⟩ "getMe" none
        (.resp 500 .null) .null).sentBody = none ∧
     (rpcTransformerCall ⟨"http://rpc", ["getMe"], none⟩ "getMe" none
        (.resp 500 .null) .null).result = .ok .null) ∧
    ((rpcTransformerCall ⟨"http://rpc", [], none⟩ "sendMessage" none
        (.resp 500 .null) .null).result = .error (.httpError 500) ∧
     (rpcTransformerCall ⟨"http://rpc", [], none⟩ "sendMessage" none
        (.resp 500 .null) .null).events = [.rpcSend, .onError "sendMessage"]) := by
  constructor
  · exact (rpcTransformerCall_exclusion_and_http_failure ⟨"http://rpc", ["getMe"], none⟩
      "getMe" none (.resp 500 .null) .null).1 (by decide)
  · exact (rpcTransformerCall_exclusion_and_http_failure ⟨"http://rpc", [], none⟩
      "sendMessage" none (.resp 500 .null) .null).2 (by decide) 500 .null rfl (by decide)

/-- C8: the startup init call is retried iff the failure is classified
recoverable or its message contains the `RPC HTTP` marker; a failure that
is neither re-raises the original error at once; the 10th attempt's
failure re-raises the original error regardless (ceiling), and 10
consecutive retryable failures end with the 10th attempt's error raised;
an abort signal firing during the backoff sleep raises the distinct
aborted-during-init-retry failure instead of continuing. -/
theorem initRetryLoop_policy (attempts : Nat → InitAttempt) :
    (∀ k f, attempts k = .fail f →
      f.recoverable = false → jsIncludes f.errMsg "RPC HTTP" = false →
      initRetryLoop attempts k = .fatal f.errMsg) ∧
    (∀ k f, attempts k = .fail f → k + 1 < WEBHOOK_INIT_MAX_RETRIES →
      (f.recoverable = true ∨ jsIncludes f.errMsg "RPC HTTP" = true) →
      f.sleep = .completed →
      initRetryLoop attempts k = initRetryLoop attempts (k + 1)) ∧
    (∀ f, attempts (WEBHOOK_INIT_MAX_RETRIES - 1) = .fail f →
      initRetryLoop attempts (WEBHOOK_INIT_MAX_RETRIES - 1) = .fatal f.errMsg) ∧
    (∀ k f, attempts k = .fail f → k + 1 < WEBHOOK_INIT_MAX_RETRIES →
      (f.recoverable = true ∨ jsIncludes f.errMsg "RPC HTTP" = true) →
      f.sleep = .abortedSignal →
      initRetryLoop attempts k = .abortedDuringInitRetry) ∧
    (∀ k, attempts k = .ok → initRetryLoop attempts k = .success (k + 1)) ∧
    ((∀ k, k < WEBHOOK_INIT_MAX_RETRIES → ∃ f, attempts k = .fail f ∧
        f.recoverable = true ∧ f.sleep = .completed) →
      ∃ f, attempts (WEBHOOK_INIT_MAX_RETRIES - 1) = .fail f ∧
        initRetryLoop attempts 0 = .fatal f.errMsg) := by
  have hA : ∀ k f, attempts k = .fail f →
      f.recoverable = false → jsIncludes f.errMsg "RPC HTTP" = false →
      initRetryLoop attempts k = .fatal f.errMsg := by
    intro k f hk hrec hrpc
    conv_lhs => rw [initRetryLoop.eq_def]
    rw [hk]
    simp [hrec, hrpc]
  have hB : ∀ k f, attempts k = .fail f → k + 1 < WEBHOOK_INIT_MAX_RETRIES →
      (f.recoverable = true ∨ jsIncludes f.errMsg "RPC HTTP" = true) →
      f.sleep = .completed →
      initRetryLoop attempts k = initRetryLoop attempts (k + 1) := by
    intro k f hk hceil hretry hsleep
    have hcond : ¬((¬f.recoverable = true ∧ ¬jsIncludes f.errMsg "RPC HTTP" = true) ∨
        k + 1 ≥ WEBHOOK_INIT_MAX_RETRIES) := by
      rintro (⟨h1, h2⟩ | h3)
      · rcases hretry with h | h
        · exact h1 h
        · exact h2 h
      · omega
    conv_lhs => rw [initRetryLoop.eq_def]
    rw [hk]
    simp [hcond, hsleep]
    intro hd
    rcases hd with ⟨h1, h2⟩ | h3
    · rcases hretry with h | h
      · simp [h] at h1
      · simp [h] at h2
    · exact absurd h3 (by omega)
  have hC : ∀ f, attempts (WEBHOOK_INIT_MAX_RETRIES - 1) = .fail f →
      initRetryLoop attempts (WEBHOOK_INIT_MAX_RETRIES - 1) = .fatal f.errMsg := by
    intro f hk
    conv_lhs => rw [initRetryLoop.eq_def]
    rw [hk]
    have hge : WEBHOOK_INIT_MAX_RETRIES - 1 + 1 ≥ WEBHOOK_INIT_MAX_RETRIES := by
      simp [WEBHOOK_INIT_MAX_RETRIES]
    simp [hge]
  refine ⟨hA, hB, hC, ?_, ?_, ?_⟩
  · intro k f hk hceil hretry hsleep
    conv_lhs => rw [initRetryLoop.eq_def]
    rw [hk]
    simp [hsleep]
    refine ⟨?_, hceil⟩
    intro h1
    rcases hretry with h | h
    · simp [h] at h1
    · exact h
  · intro k hk
    conv_lhs => rw [initRetryLoop.eq_def]
    rw [hk]
  · intro hall
    have hstep : ∀ k, k + 1 < WEBHOOK_INIT_MAX_RETRIES →
        initRetryLoop attempts k = initRetryLoop attempts (k + 1) := by
      intro k hceil
      obtain ⟨f, hk, hrec, hsleep⟩ := hall k (by omega)
      exact hB k f hk hceil (Or.inl hrec) hsleep
    obtain ⟨f9, hk9, _, _⟩ := hall (WEBHOOK_INIT_MAX_RETRIES - 1)
      (by simp [WEBHOOK_INIT_MAX_RETRIES])
    refine ⟨f9, hk9, ?_⟩
    have h01 := hstep 0 (by simp [WEBHOOK_INIT_MAX_RETRIES])
    have h12 := hstep 1 (by simp [WEBHOOK_INIT_MAX_RETRIES])
    have h23 := hstep 2 (by simp [WEBHOOK_INIT_MAX_RETRIES])
    have h34 := hstep 3 (by simp [WEBHOOK_INIT_MAX_RETRIES])
    have h45 := hstep 4 (by simp [WEBHOOK_INIT_MAX_RETRIES])
    have h56 := hstep 5 (by simp [WEBHOOK_INIT_MAX_RETRIES])
    have h67 := hstep 6 (by simp [WEBHOOK_INIT_MAX_RETRIES])
    have h78 := hstep 7 (by simp [WEBHOOK_INIT_MAX_RETRIES])
    have h89 := hstep 8 (by simp [WEBHOOK_INIT_MAX_RETRIES])
    have hlast := hC f9 hk9
    simp only [WEBHOOK_INIT_MAX_RETRIES] at hlast ⊢
    rw [h01, h12, h23, h34, h45, h56, h67, h78, h89]
    simpa using hlast

/-- Witness for C8: a non-recoverable, non-RPC failure on the first
attempt re-raises the original error; an abort during the first backoff
sleep of a recoverable failure raises the distinct aborted failure. -/
theorem initRetryLoop_policy_witness :
    initRetryLoop (fun _ => .fail ⟨"boom", false, .completed⟩) 0 = .fatal "boom" ∧
    initRetryLoop (fun _ => .fail ⟨"net reset", true, .abortedSignal⟩) 0 =
      .abortedDuringInitRetry ∧
    initRetryLoop (fun _ => .ok) 0 = .success 1 := by
  refine ⟨?_, ?_, ?_⟩
  · exact (initRetryLoop_policy (fun _ => .fail ⟨"boom", false, .completed⟩)).1 0
      ⟨"boom", false, .completed⟩ rfl rfl (by decide)
  · exact (initRetryLoop_policy
      (fun _ => .fail ⟨"net reset", true, .abortedSignal⟩)).2.2.2.1 0
      ⟨"net reset", true, .abortedSignal⟩ rfl (by decide) (Or.inl rfl) rfl
  · exact (initRetryLoop_policy (fun _ => .ok)).2.2.2.2.1 0 rfl

/-- C9: the direct-relay send is total - a missing (or empty) outbound URL,
a non-2xx response, or a transport error each yield a structured
`ok: false` result with an error string, never an exception; a 2xx
response is parsed permissively, accepting the nested
`result.message_id` / `result.chat.id` shape and the flattened
`message_id` / `chat_id` shape; in particular `sendMessage` of "hi" to
chat 42 against a relay answering `ok, message_id 7, chat_id 42` returns
`ok` with messageId "7" and chatId "42". -/
theorem sendToOutbound_cases :
    (∀ (url : Option String) payload fetch, url.getD "" = "" →
      sendToOutbound url payload fetch =
        ⟨false, none, none, some "outboundUrl not configured for tgrelay account"⟩) ∧
    (∀ url payload msg, url ≠ "" →
      sendToOutbound (some url) payload (.transportError msg) =
        ⟨false, none, none, some msg⟩) ∧
    (∀ url payload status text json, url ≠ "" → ¬(200 ≤ status ∧ status ≤ 299) →
      sendToOutbound (some url) payload (.resp status text json) =
        ⟨false, none, none, some ("HTTP " ++ toString status ++ ": " ++ text)⟩) ∧
    (∀ url payload status text okf m c rest1 rest2, url ≠ "" →
      200 ≤ status → status ≤ 299 →
      sendToOutbound (some url) payload
        (.resp status text (some ⟨okf, some ⟨some m, some ⟨some c⟩⟩, rest1, rest2⟩)) =
        ⟨true, some (toString m), some (toString c), none⟩) ∧
    (∀ url payload status text okf m c, url ≠ "" →
      200 ≤ status → status ≤ 299 →
      sendToOutbound (some url) payload
        (.resp status text (some ⟨okf, none, some m, some c⟩)) =
        ⟨true, some (toString m), some c.toStr, none⟩) ∧
    sendTgrelayText (.num 42) "hi" none none none none (some "http://relay")
      (.resp 200 "" (some ⟨some true, none, some 7, some (.num 42)⟩)) =
      ⟨true, some "7", some "42", none⟩ := by
  refine ⟨?_, ?_, ?_, ?_, ?_, by decide⟩
  · intro url payload fetch hurl
    simp [sendToOutbound, hurl]
  · intro url payload msg hurl
    simp [sendToOutbound, hurl]
  · intro url payload status text json hurl hst
    simp [sendToOutbound, hurl, hst]
  · intro url payload status text okf m c rest1 rest2 hurl h1 h2
    simp [sendToOutbound, hurl, h1, h2]
  · intro url payload status text okf m c hurl h1 h2
    simp [sendToOutbound, hurl, h1, h2]

/-- Witness for C9: the non-2xx, transport-error and nested-shape branches
applied at concrete inputs. -/
theorem sendToOutbound_cases_witness :
    sendToOutbound (some "http://u")
      ⟨"sendMessage", .num 5, some "x", none, none, none, none, none⟩
      (.resp 500 "boom" none) = ⟨false, none, none, some "HTTP 500: boom"⟩ ∧
    sendToOutbound (some "http://u")
      ⟨"sendMessage", .num 5, some "x", none, none, none, none, none⟩
      (.transportError "refused") = ⟨false, none, none, some "refused"⟩ ∧
    sendToOutbound (some "http://u")
      ⟨"sendMessage", .num 5, some "x", none, none, none, none, none⟩
      (.resp 200 "" (some ⟨some true, some ⟨some 9, some ⟨some 3⟩⟩, none, none⟩)) =
      ⟨true, some "9", some "3", none⟩ ∧
    sendToOutbound none
      ⟨"sendMessage", .num 5, some "x", none, none, none, none, none⟩
      (.resp 200 "" none) =
      ⟨false, none, none, some "outboundUrl not configured for tgrelay account"⟩ := by
  refine ⟨?_, ?_, ?_, ?_⟩
  · exact sendToOutbound_cases.2.2.1 "http://u"
      ⟨"sendMessage", .num 5, some "x", none, none, none, none, none⟩ 500 "boom" none
      (by decide) (by decide)
  · exact sendToOutbound_cases.2.1 "http://u"
      ⟨"sendMessage", .num 5, some "x", none, none, none, none, none⟩ "refused" (by decide)
  · exact sendToOutbound_cases.2.2.2.1 "http://u"
      ⟨"sendMessage", .num 5, some "x", none, none, none, none, none⟩ 200 "" (some true)
      9 3 none none (by decide) (by decide) (by decide)
  · exact sendToOutbound_cases.1 none
      ⟨"sendMessage", .num 5, some "x", none, none, none, none, none⟩ (.resp 200 "" none) rfl
